import Mathlib

/-
  Verification development for the PBIX UI extraction / projection pipeline.

  Shallow embedding of the Python sources:
    - setup_powerbi_mcp_db.py  (relational projector, page-visual resolver,
      power-query source classifier)
    - parse_pbix_ui.py         (visual classifier and binding extractor)
    - extract_pbix_ui.py       (encoding cascade and layout-member parsing)

  JSON documents are modelled by the inductive type `Json`; numbers are
  restricted to integers (no claim under verification depends on float
  payloads).  Python runtime errors (KeyError, TypeError, AttributeError,
  IndexError) are modelled by the `PyErr` type and `Except PyErr` results;
  error message strings are abbreviated stand-ins for the CPython texts.
-/

set_option maxHeartbeats 1000000

namespace PB

/-- A JSON value as produced by json.load / json.loads.  Objects keep key
order, mirroring Python dict insertion order; numbers are integers. -/
inductive Json where
  | null : Json
  | bool : Bool → Json
  | num : Int → Json
  | str : String → Json
  | arr : List Json → Json
  | obj : List (String × Json) → Json
  deriving Repr

mutual

/-- Boolean equality on `Json`. -/
def beqJ : Json → Json → Bool
  | .null, .null => true
  | .bool a, .bool b => a == b
  | .num a, .num b => a == b
  | .str a, .str b => a == b
  | .arr a, .arr b => beqJL a b
  | .obj a, .obj b => beqJO a b
  | _, _ => false

/-- Boolean equality on lists of `Json`. -/
def beqJL : List Json → List Json → Bool
  | [], [] => true
  | a :: as, b :: bs => beqJ a b && beqJL as bs
  | _, _ => false

/-- Boolean equality on object field lists. -/
def beqJO : List (String × Json) → List (String × Json) → Bool
  | [], [] => true
  | (k, v) :: as, (k2, v2) :: bs => (k == k2 && beqJ v v2) && beqJO as bs
  | _, _ => false

end

/-- Python exception kinds raised by the embedded code paths. -/
inductive PyErr where
  | keyError : String → PyErr
  | typeError : String → PyErr
  | attributeError : String → PyErr
  | indexError : String → PyErr
  deriving DecidableEq, Repr

/-- Abbreviated str(e) for an exception, used where the source interpolates
the exception into an error record. -/
def errMsg : PyErr → String
  | .keyError s => "KeyError: " ++ s
  | .typeError s => "TypeError: " ++ s
  | .attributeError s => "AttributeError: " ++ s
  | .indexError s => "IndexError: " ++ s

/-- First-match lookup in an object field list (Python dicts have unique
keys, so first match equals the dict lookup). -/
def jlookup (l : List (String × Json)) (k : String) : Option Json :=
  match l with
  | [] => none
  | p :: rest => if p.1 = k then some p.2 else jlookup rest k

/-- Python prefix test on char lists. -/
def leadsWith : List Char → List Char → Bool
  | [], _ => true
  | _ :: _, [] => false
  | a :: as, b :: bs => a == b && leadsWith as bs

/-- Python substring containment, the semantics of `needle in hay` on str. -/
def hasSub : List Char → List Char → Bool
  | [], needle => needle.isEmpty
  | hay@(_ :: t), needle => leadsWith needle hay || hasSub t needle

/-- String-level substring containment (`needle in hay` for Python str). -/
def strHasSub (hay needle : String) : Bool :=
  hasSub hay.data needle.data

/-- The double-quote character. -/
def dqChar : Char := Char.ofNat 34

/-- The single-quote character. -/
def sqChar : Char := Char.ofNat 39

/-- The backslash character. -/
def bsChar : Char := Char.ofNat 92

/-- Left and right curly-brace characters. -/
def lbChar : Char := Char.ofNat 123

/-- Right curly brace. -/
def rbChar : Char := Char.ofNat 125

/-- Python `s.strip(chars)` restricted to a single strip character: drops
every leading and trailing occurrence of that character. -/
def stripChar (c : Char) (s : String) : String :=
  String.mk (((s.data.dropWhile (· == c)).reverse.dropWhile (· == c)).reverse)

/-- Whitespace characters recognised by Python str.strip() with no
argument (restricted to the ASCII whitespace set). -/
def pyWs (c : Char) : Bool :=
  c == ' ' || c == Char.ofNat 9 || c == Char.ofNat 10 || c == Char.ofNat 13 ||
  c == Char.ofNat 11 || c == Char.ofNat 12

/-- Truthiness of `s.strip()` for a Python string: true when some character
is not whitespace. -/
def strippedTruthy (s : String) : Bool :=
  s.data.any (fun c => !(pyWs c))

/-- Python str.lower restricted to ASCII letters. -/
def pyLower (s : String) : String :=
  String.mk (s.data.map Char.toLower)

/-- Comma-join used by pyRepr. -/
def joinComma (l : List String) : String :=
  String.intercalate ", " l

mutual

/-- Python repr() of a JSON-shaped value: used where the source applies
str() to a container.  String escaping quirks of repr are not reproduced
(no theorem depends on them); the function is a fixed deterministic
injection in the cases the pipeline exercises. -/
def pyRepr : Json → String
  | .null => "None"
  | .bool true => "True"
  | .bool false => "False"
  | .num n => toString n
  | .str s => String.mk (sqChar :: s.data ++ [sqChar])
  | .arr l => "[" ++ joinComma (pyReprList l) ++ "]"
  | .obj l => String.mk [lbChar] ++ joinComma (pyReprObj l) ++ String.mk [rbChar]

/-- repr of the elements of a list. -/
def pyReprList : List Json → List String
  | [] => []
  | x :: xs => pyRepr x :: pyReprList xs

/-- repr of the entries of a dict. -/
def pyReprObj : List (String × Json) → List String
  | [] => []
  | (k, v) :: xs =>
      (String.mk (sqChar :: k.data ++ [sqChar]) ++ ": " ++ pyRepr v) :: pyReprObj xs

end

/-- Python str() of a JSON-shaped value: identity on strings, repr-like on
everything else (int, bool, None, containers). -/
def pyStr : Json → String
  | .str s => s
  | j => pyRepr j

/-- Python `d.get(key, default)`: only dicts have .get; any other receiver
raises AttributeError. -/
def pyGet (d : Json) (k : String) (dflt : Json) : Except PyErr Json :=
  match d with
  | .obj l => .ok ((jlookup l k).getD dflt)
  | _ => .error (.attributeError "get")

/-- Python `d[key]` with a string key: dict lookup (KeyError when absent);
indexing any other value with a string raises TypeError. -/
def pyIndexJ (d : Json) (k : String) : Except PyErr Json :=
  match d with
  | .obj l =>
    match jlookup l k with
    | some v => .ok v
    | none => .error (.keyError k)
  | _ => .error (.typeError "indices")

/-- Python `needle in container` for a string needle: key test on dicts,
element equality on lists, substring test on strings, TypeError otherwise. -/
def pyIn (needle : String) (c : Json) : Except PyErr Bool :=
  match c with
  | .obj l => .ok (jlookup l needle).isSome
  | .arr l => .ok (l.any (fun x => beqJ x (Json.str needle)))
  | .str s => .ok (strHasSub s needle)
  | _ => .error (.typeError "not iterable")

/-- Python iteration `for x in c`: list elements, dict keys, string
characters; TypeError otherwise. -/
def pyIterList (c : Json) : Except PyErr (List Json) :=
  match c with
  | .arr l => .ok l
  | .obj l => .ok (l.map (fun p => Json.str p.1))
  | .str s => .ok (s.data.map (fun ch => Json.str (String.mk [ch])))
  | _ => .error (.typeError "not iterable")

/-- Python len(). -/
def pyLen (c : Json) : Except PyErr Nat :=
  match c with
  | .arr l => .ok l.length
  | .obj l => .ok l.length
  | .str s => .ok s.data.length
  | _ => .error (.typeError "no len")

/-- Python positional indexing `c[i]` for a non-negative index. -/
def pyIdx (c : Json) (i : Nat) : Except PyErr Json :=
  match c with
  | .arr l =>
    match l.get? i with
    | some v => .ok v
    | none => .error (.indexError "list index out of range")
  | .str s =>
    match s.data.get? i with
    | some ch => .ok (Json.str (String.mk [ch]))
    | none => .error (.indexError "string index out of range")
  | _ => .error (.typeError "not subscriptable")

/-- Python truthiness. -/
def pyTruthy : Json → Bool
  | .null => false
  | .bool b => b
  | .num n => n != 0
  | .str s => !s.data.isEmpty
  | .arr l => !l.isEmpty
  | .obj l => !l.isEmpty

/-- Python round(x, 1) as the source applies it to geometry values: the
embedding carries integral numbers, on which round is the identity; bools
behave as ints; any other operand raises TypeError. -/
def pyRound1 (v : Json) : Except PyErr Json :=
  match v with
  | .num n => .ok (.num n)
  | .bool b => .ok (.num (if b then 1 else 0))
  | _ => .error (.typeError "round")

/-- Python list.append on a JSON-shaped value: only lists support append. -/
def pyAppend (l : Json) (x : Json) : Except PyErr Json :=
  match l with
  | .arr a => .ok (.arr (a ++ [x]))
  | _ => .error (.attributeError "append")

/-
  json.loads, as used by parse_visual_config and _extract_layout_file.
  Strict JSON with integer numbers: payloads whose syntax depends on
  float or exponent literals are outside the embedding and parse as
  failures here.  Duplicate object keys keep the last value at the first
  position, matching Python dict assignment order.
-/

/-- JSON structural whitespace. -/
def jWs (c : Char) : Bool :=
  c == ' ' || c == Char.ofNat 9 || c == Char.ofNat 10 || c == Char.ofNat 13

/-- Drop leading JSON whitespace. -/
def skipWsJ : List Char → List Char
  | [] => []
  | c :: r => if jWs c then skipWsJ r else c :: r

/-- Single-character JSON string escapes. -/
def escChar (c : Char) : Option Char :=
  if c == dqChar then some dqChar
  else if c == bsChar then some bsChar
  else if c == '/' then some '/'
  else if c == 'b' then some (Char.ofNat 8)
  else if c == 'f' then some (Char.ofNat 12)
  else if c == 'n' then some (Char.ofNat 10)
  else if c == 'r' then some (Char.ofNat 13)
  else if c == 't' then some (Char.ofNat 9)
  else none

/-- Hex digit value. -/
def hexVal (c : Char) : Option Nat :=
  if c.isDigit then some (c.toNat - 48)
  else if 97 ≤ c.toNat && c.toNat ≤ 102 then some (c.toNat - 87)
  else if 65 ≤ c.toNat && c.toNat ≤ 70 then some (c.toNat - 55)
  else none

/-- Parse the contents of a JSON string literal after the opening quote;
returns the characters and the remainder after the closing quote. -/
def parseStrContents : List Char → Option (List Char × List Char)
  | [] => none
  | c :: r =>
    if c == dqChar then some ([], r)
    else if c == bsChar then
      match r with
      | [] => none
      | e :: r2 =>
        if e == 'u' then
          match r2 with
          | h1 :: h2 :: h3 :: h4 :: r3 =>
            match hexVal h1, hexVal h2, hexVal h3, hexVal h4 with
            | some a, some b2, some c2, some d =>
              (parseStrContents r3).map
                (fun p => (Char.ofNat (((a * 16 + b2) * 16 + c2) * 16 + d) :: p.1, p.2))
            | _, _, _, _ => none
          | _ => none
        else
          match escChar e with
          | some ch => (parseStrContents r2).map (fun p => (ch :: p.1, p.2))
          | none => none
    else if c.toNat < 32 then none
    else (parseStrContents r).map (fun p => (c :: p.1, p.2))

/-- Parse a JSON integer literal (optionally negative, no leading zeros,
no fraction or exponent). -/
def parseIntPart (cs : List Char) : Option (Int × List Char) :=
  let (neg, cs1) : Bool × List Char :=
    match cs with
    | c :: r => if c == '-' then (true, r) else (false, cs)
    | [] => (false, cs)
  let ds := cs1.takeWhile (·.isDigit)
  let rest := cs1.dropWhile (·.isDigit)
  if ds.isEmpty then none
  else if 1 < ds.length && ds.head? == some '0' then none
  else
    match rest with
    | c :: _ =>
      if c == '.' || c == 'e' || c == 'E' then none
      else some (mkIntVal neg ds, rest)
    | [] => some (mkIntVal neg ds, rest)
where
  mkIntVal (neg : Bool) (ds : List Char) : Int :=
    let v : Int := ds.foldl (fun a c => a * 10 + (Int.ofNat (c.toNat - 48))) 0
    if neg then -v else v

/-- Replace-or-append insertion into an object field list: Python dict
assignment keeps the original key position and updates the value. -/
def objInsert (k : String) (v : Json) : List (String × Json) → List (String × Json)
  | [] => [(k, v)]
  | (k2, v2) :: rest => if k2 = k then (k, v) :: rest else (k2, v2) :: objInsert k v rest

/-- Build a dict from parsed key-value pairs in order. -/
def objFromPairs (ps : List (String × Json)) : List (String × Json) :=
  ps.foldl (fun acc p => objInsert p.1 p.2 acc) []

/-- Expect a literal tail such as "rue" after the initial character. -/
def dropLit : List Char → List Char → Option (List Char)
  | [], cs => some cs
  | _ :: _, [] => none
  | l :: ls, c :: cs => if l == c then dropLit ls cs else none

mutual

/-- Parse one JSON value; fuel bounds the recursion. -/
def parseV : Nat → List Char → Option (Json × List Char)
  | 0, _ => none
  | fuel + 1, cs =>
    match skipWsJ cs with
    | [] => none
    | c :: rest =>
      if c == dqChar then
        (parseStrContents rest).map (fun p => (Json.str (String.mk p.1), p.2))
      else if c == '[' then
        match skipWsJ rest with
        | c2 :: r2 =>
          if c2 == ']' then some (Json.arr [], r2)
          else (parseItems fuel (c2 :: r2)).map (fun p => (Json.arr p.1, p.2))
        | [] => none
      else if c == lbChar then
        match skipWsJ rest with
        | c2 :: r2 =>
          if c2 == rbChar then some (Json.obj [], r2)
          else (parseFields fuel (c2 :: r2)).map
            (fun p => (Json.obj (objFromPairs p.1), p.2))
        | [] => none
      else if c == 't' then (dropLit ['r', 'u', 'e'] rest).map (fun r => (Json.bool true, r))
      else if c == 'f' then (dropLit ['a', 'l', 's', 'e'] rest).map (fun r => (Json.bool false, r))
      else if c == 'n' then (dropLit ['u', 'l', 'l'] rest).map (fun r => (Json.null, r))
      else if c == '-' || c.isDigit then
        (parseIntPart (c :: rest)).map (fun p => (Json.num p.1, p.2))
      else none

/-- Parse one or more comma-separated array items up to the closing
bracket. -/
def parseItems : Nat → List Char → Option (List Json × List Char)
  | 0, _ => none
  | fuel + 1, cs => do
    let (v, rest) ← parseV fuel cs
    match skipWsJ rest with
    | c :: r2 =>
      if c == ',' then (parseItems fuel r2).map (fun p => (v :: p.1, p.2))
      else if c == ']' then some ([v], r2)
      else none
    | [] => none

/-- Parse one or more comma-separated object fields up to the closing
brace; returns raw pairs in textual order. -/
def parseFields : Nat → List Char → Option (List (String × Json) × List Char)
  | 0, _ => none
  | fuel + 1, cs =>
    match skipWsJ cs with
    | c :: rest =>
      if c == dqChar then do
        let (k, r1) ← parseStrContents rest
        match skipWsJ r1 with
        | c2 :: r2 =>
          if c2 == ':' then do
            let (v, r3) ← parseV fuel r2
            match skipWsJ r3 with
            | c3 :: r4 =>
              if c3 == ',' then
                (parseFields fuel r4).map (fun p => ((String.mk k, v) :: p.1, p.2))
              else if c3 == rbChar then some ([(String.mk k, v)], r4)
              else none
            | [] => none
          else none
        | [] => none
      else none
    | [] => none

end

/-- json.loads: parse an entire string as one JSON document. -/
def jsonParse (s : String) : Option Json :=
  match parseV (2 * s.data.length + 4) s.data with
  | some (j, rest) => if (skipWsJ rest).isEmpty then some j else none
  | none => none

/-
  PBIXVisualParser (parse_pbix_ui.py).
-/

/-- Python `d.items()`: only dicts have .items. -/
def pyItems (d : Json) : Except PyErr (List (String × Json)) :=
  match d with
  | .obj l => .ok l
  | _ => .error (.attributeError "items")

/-- VISUAL_TYPE_MAP from PBIXVisualParser: Power BI visual type codes to
readable names. -/
def VISUAL_TYPE_MAP : List (String × String) :=
  [("actionButton", "Action Button"),
   ("card", "Card"),
   ("columnChart", "Column Chart"),
   ("barChart", "Bar Chart"),
   ("lineChart", "Line Chart"),
   ("areaChart", "Area Chart"),
   ("pieChart", "Pie Chart"),
   ("donutChart", "Donut Chart"),
   ("tableEx", "Table"),
   ("matrix", "Matrix"),
   ("slicer", "Slicer"),
   ("gauge", "Gauge"),
   ("scatterChart", "Scatter Chart"),
   ("map", "Map"),
   ("filledMap", "Filled Map"),
   ("treemap", "Treemap"),
   ("waterfallChart", "Waterfall Chart"),
   ("funnelChart", "Funnel Chart"),
   ("ribbonChart", "Ribbon Chart"),
   ("textbox", "Text Box"),
   ("shape", "Shape"),
   ("image", "Image"),
   ("multiRowCard", "Multi-row Card"),
   ("kpi", "KPI"),
   ("stackedAreaChart", "Stacked Area Chart"),
   ("clusteredBarChart", "Clustered Bar Chart"),
   ("stackedBarChart", "Stacked Bar Chart"),
   ("clusteredColumnChart", "Clustered Column Chart"),
   ("stackedColumnChart", "Stacked Column Chart"),
   ("lineStackedColumnComboChart", "Line and Stacked Column Chart"),
   ("lineClusteredColumnComboChart", "Line and Clustered Column Chart"),
   ("100stackedBarChart", "100% Stacked Bar Chart"),
   ("100stackedColumnChart", "100% Stacked Column Chart"),
   ("htmlViewer", "HTML Viewer")]

/-- First-match lookup in a string-to-string table. -/
def lookupStr (m : List (String × String)) (k : String) : Option String :=
  match m with
  | [] => none
  | p :: rest => if p.1 = k then some p.2 else lookupStr rest k

/-- The error record returned by parse_visual_config on a parse failure. -/
def errConfig (s : String) : Json :=
  Json.obj [("error", Json.str "Failed to parse config"),
            ("raw", Json.str (String.mk (s.data.take 200)))]

/-- PBIXVisualParser.parse_visual_config: parse the configuration string,
retrying on the quote-stripped string when it does not open with a brace;
JSON failures yield the error record, a non-string receiver raises
AttributeError on startswith. -/
def parse_visual_config (config_str : Json) : Except PyErr Json :=
  match config_str with
  | .str s =>
    if leadsWith [lbChar] s.data then
      match jsonParse s with
      | some j => .ok j
      | none => .ok (errConfig s)
    else
      match jsonParse (stripChar dqChar s) with
      | some j => .ok j
      | none => .ok (errConfig s)
  | _ => .error (.attributeError "startswith")

/-- VISUAL_TYPE_MAP.get(visual_type, visual_type): dict get with default;
unhashable keys (lists, dicts) raise TypeError. -/
def vtGet (vt : Json) : Except PyErr Json :=
  match vt with
  | .str s => .ok (.str ((lookupStr VISUAL_TYPE_MAP s).getD s))
  | .num _ => .ok vt
  | .bool _ => .ok vt
  | .null => .ok vt
  | _ => .error (.typeError "unhashable")

/-- PBIXVisualParser.extract_visual_type. -/
def extract_visual_type (config : Json) : Except PyErr Json := do
  let b1 ← pyIn "singleVisual" config
  if b1 then do
    let sv ← pyIndexJ config "singleVisual"
    let b2 ← pyIn "visualType" sv
    if b2 then do
      let vt ← pyIndexJ sv "visualType"
      vtGet vt
    else pure (.str "Unknown")
  else pure (.str "Unknown")

/-- The field-flattening inner loop of extract_data_roles over one
projections entry; the error value carries the bindings accumulated when
the exception was raised. -/
def edrFieldLoop (role : String) (fs : List Json) (dr : Json) :
    Except (Json × PyErr) Json :=
  match fs with
  | [] => .ok dr
  | f :: rest =>
    match pyAppend dr (Json.obj [("role", Json.str role), ("field", f)]) with
    | .ok dr2 => edrFieldLoop role rest dr2
    | .error e => .error (dr, e)

/-- The projections loop of extract_data_roles: entries whose value is not
a list are skipped by the isinstance guard. -/
def edrProjLoop (items : List (String × Json)) (dr : Json) :
    Except (Json × PyErr) Json :=
  match items with
  | [] => .ok dr
  | (role, fields) :: rest =>
    match fields with
    | .arr fs =>
      match edrFieldLoop role fs dr with
      | .ok dr2 => edrProjLoop rest dr2
      | .error e => .error e
    | _ => edrProjLoop rest dr

/-- The direct dataRoles block of extract_data_roles: list.extend of the
value onto the accumulated bindings. -/
def edrDirect (sv : Json) (dr : Json) : Except (Json × PyErr) Json :=
  match pyIn "dataRoles" sv with
  | .error e => .error (dr, e)
  | .ok false => .ok dr
  | .ok true =>
    match pyIndexJ sv "dataRoles" with
    | .error e => .error (dr, e)
    | .ok v =>
      match dr with
      | .arr a =>
        match pyIterList v with
        | .error e => .error (dr, e)
        | .ok items => .ok (.arr (a ++ items))
      | _ => .error (dr, .attributeError "extend")

/-- The projections block of extract_data_roles. -/
def edrProj (sv : Json) (dr : Json) : Except (Json × PyErr) Json :=
  match pyIn "projections" sv with
  | .error e => .error (dr, e)
  | .ok false => edrDirect sv dr
  | .ok true =>
    match pyIndexJ sv "projections" with
    | .error e => .error (dr, e)
    | .ok p =>
      match pyItems p with
      | .error e => .error (dr, e)
      | .ok items =>
        match edrProjLoop items dr with
        | .ok dr2 => edrDirect sv dr2
        | .error e => .error e

/-- The query block of extract_data_roles: when present, the binding list
is rebound to the nested query dataRoles value. -/
def edrQuery (sv : Json) (dr : Json) : Except (Json × PyErr) Json :=
  match pyIn "query" sv with
  | .error e => .error (dr, e)
  | .ok false => edrProj sv dr
  | .ok true =>
    match pyIndexJ sv "query" with
    | .error e => .error (dr, e)
    | .ok q =>
      match pyIn "dataRoles" q with
      | .error e => .error (dr, e)
      | .ok false => edrProj sv dr
      | .ok true =>
        match pyIndexJ q "dataRoles" with
        | .error e => .error (dr, e)
        | .ok dr2 => edrProj sv dr2

/-- The guarded body of extract_data_roles. -/
def edrBody (config : Json) : Except (Json × PyErr) Json :=
  let dr0 := Json.arr []
  match pyIn "singleVisual" config with
  | .error e => .error (dr0, e)
  | .ok false => .ok dr0
  | .ok true =>
    match pyIndexJ config "singleVisual" with
    | .error e => .error (dr0, e)
    | .ok sv => edrQuery sv dr0

/-- PBIXVisualParser.extract_data_roles: the except branch appends an error
record to the bindings accumulated so far (which itself raises when the
accumulator was rebound to a non-list). -/
def extract_data_roles (config : Json) : Except PyErr Json :=
  match edrBody config with
  | .ok dr => .ok dr
  | .error (dr, e) => pyAppend dr (Json.obj [("error", Json.str (errMsg e))])

/-- Inner object-config loop of extract_visual_properties. -/
def evpOcLoop (object_name : String) (ocs : List Json)
    (props : List (String × Json)) :
    Except (List (String × Json) × PyErr) (List (String × Json)) :=
  match ocs with
  | [] => .ok props
  | oc :: rest =>
    match pyIn "properties" oc with
    | .error e => .error (props, e)
    | .ok false => evpOcLoop object_name rest props
    | .ok true =>
      match pyIndexJ oc "properties" with
      | .error e => .error (props, e)
      | .ok v =>
        match jlookup props object_name with
        | some (.arr a) =>
          evpOcLoop object_name rest (objInsert object_name (.arr (a ++ [v])) props)
        | _ => .error (props, .attributeError "append")

/-- Outer loop of extract_visual_properties over objects.items(). -/
def evpLoop (items : List (String × Json)) (props : List (String × Json)) :
    Except (List (String × Json) × PyErr) (List (String × Json)) :=
  match items with
  | [] => .ok props
  | (object_name, object_configs) :: rest =>
    let props1 := objInsert object_name (Json.arr []) props
    match object_configs with
    | .arr ocs =>
      match evpOcLoop object_name ocs props1 with
      | .ok props2 => evpLoop rest props2
      | .error e => .error e
    | _ => evpLoop rest props1

/-- The guarded body of extract_visual_properties. -/
def evpBody (config : Json) :
    Except (List (String × Json) × PyErr) (List (String × Json)) :=
  match pyIn "singleVisual" config with
  | .error e => .error ([], e)
  | .ok false => .ok []
  | .ok true =>
    match pyIndexJ config "singleVisual" with
    | .error e => .error ([], e)
    | .ok sv =>
      match pyIn "objects" sv with
      | .error e => .error ([], e)
      | .ok false => .ok []
      | .ok true =>
        match pyIndexJ sv "objects" with
        | .error e => .error ([], e)
        | .ok objects =>
          match pyItems objects with
          | .error e => .error ([], e)
          | .ok items => evpLoop items []

/-- PBIXVisualParser.extract_visual_properties: the except branch stores
the exception text under the error key of the partial result. -/
def extract_visual_properties (config : Json) : Except PyErr Json :=
  match evpBody config with
  | .ok props => .ok (Json.obj props)
  | .error (props, e) => .ok (Json.obj (objInsert "error" (.str (errMsg e)) props))

/-- Literal-value extraction shared by the text searches: follows
expr.Literal.Value and strips single quotes; a non-string Value raises. -/
def litValue (holder : Json) : Except PyErr String := do
  let ex ← pyIndexJ holder "expr"
  let lit ← pyIndexJ ex "Literal"
  let v ← pyIndexJ lit "Value"
  match v with
  | .str s => pure (stripChar sqChar s)
  | _ => throw (.attributeError "strip")

/-- First text-search loop of extract_text_content over the text object
configurations. -/
def etcTextLoop (tcs : List Json) : Except PyErr (Option String) :=
  match tcs with
  | [] => .ok none
  | tc :: rest => do
    let b1 ← pyIn "properties" tc
    if b1 then do
      let props ← pyIndexJ tc "properties"
      let b2 ← pyIn "text" props
      if b2 then do
        let te ← pyIndexJ props "text"
        let b3 ← pyIn "expr" te
        if b3 then do
          let ex ← pyIndexJ te "expr"
          let b4 ← pyIn "Literal" ex
          if b4 then do
            let s ← litValue te
            pure (some s)
          else etcTextLoop rest
        else etcTextLoop rest
      else etcTextLoop rest
    else etcTextLoop rest

/-- Property scan of the general text search. -/
def etcPropLoop (items : List (String × Json)) : Except PyErr (Option String) :=
  match items with
  | [] => .ok none
  | (pname, pval) :: rest =>
    if strHasSub (pyLower pname) "text" then
      match pval with
      | .obj _ => do
        let b1 ← pyIn "expr" pval
        if b1 then do
          let ex ← pyIndexJ pval "expr"
          let b2 ← pyIn "Literal" ex
          if b2 then do
            let s ← litValue pval
            pure (some s)
          else etcPropLoop rest
        else etcPropLoop rest
      | _ => etcPropLoop rest
    else etcPropLoop rest

/-- Object-config scan of the general text search. -/
def etcOcLoop (ocs : List Json) : Except PyErr (Option String) :=
  match ocs with
  | [] => .ok none
  | oc :: rest => do
    let b ← pyIn "properties" oc
    if b then do
      let props ← pyIndexJ oc "properties"
      let items ← pyItems props
      let r ← etcPropLoop items
      match r with
      | some s => pure (some s)
      | none => etcOcLoop rest
    else etcOcLoop rest

/-- Outer loop of the general text search over objects.items(). -/
def etcScanLoop (items : List (String × Json)) : Except PyErr (Option String) :=
  match items with
  | [] => .ok none
  | (_, obj_configs) :: rest =>
    match obj_configs with
    | .arr ocs => do
      let r ← etcOcLoop ocs
      match r with
      | some s => pure (some s)
      | none => etcScanLoop rest
    | _ => etcScanLoop rest

/-- The guarded body of extract_text_content. -/
def etcBody (config : Json) : Except PyErr (Option String) := do
  let b1 ← pyIn "singleVisual" config
  if b1 then do
    let sv ← pyIndexJ config "singleVisual"
    let b2 ← pyIn "objects" sv
    if b2 then do
      let objects ← pyIndexJ sv "objects"
      let bt ← pyIn "text" objects
      let r1 ←
        if bt then do
          let tl ← pyIndexJ objects "text"
          let tcs ← pyIterList tl
          etcTextLoop tcs
        else pure none
      match r1 with
      | some s => pure (some s)
      | none => do
        let items ← pyItems objects
        etcScanLoop items
    else pure none
  else pure none

/-- PBIXVisualParser.extract_text_content: every exception is swallowed
and yields no text. -/
def extract_text_content (config : Json) : Option String :=
  match etcBody config with
  | .ok r => r
  | .error _ => none

/-- Loop of extract_bookmarks_and_actions over the visualLink entries. -/
def ebaLoop (lcs : List Json) (actions : List (String × Json)) :
    Except (List (String × Json) × PyErr) (List (String × Json)) :=
  match lcs with
  | [] => .ok actions
  | lc :: rest =>
    match pyIn "properties" lc with
    | .error e => .error (actions, e)
    | .ok false => ebaLoop rest actions
    | .ok true =>
      match pyIndexJ lc "properties" with
      | .error e => .error (actions, e)
      | .ok props =>
        match ebaLink props actions with
        | .ok lt =>
          match ebaBookmark props actions with
          | .ok bm =>
            ebaLoop rest (objInsert "bookmark" bm (objInsert "link_type" lt actions))
          | .error e => .error e
        | .error e => .error e
where
  /-- link_type extraction for one entry. -/
  ebaLink (props : Json) (actions : List (String × Json)) :
      Except (List (String × Json) × PyErr) Json :=
    match pyIn "type" props with
    | .error e => .error (actions, e)
    | .ok false => .ok Json.null
    | .ok true =>
      match pyIndexJ props "type" with
      | .error e => .error (actions, e)
      | .ok t =>
        match pyIn "expr" t with
        | .error e => .error (actions, e)
        | .ok false => .ok Json.null
        | .ok true =>
          match litValue t with
          | .ok s => .ok (Json.str s)
          | .error e => .error (actions, e)
  /-- bookmark extraction for one entry. -/
  ebaBookmark (props : Json) (actions : List (String × Json)) :
      Except (List (String × Json) × PyErr) Json :=
    match pyIn "bookmark" props with
    | .error e => .error (actions, e)
    | .ok false => .ok Json.null
    | .ok true =>
      match pyIndexJ props "bookmark" with
      | .error e => .error (actions, e)
      | .ok b =>
        match pyIn "expr" b with
        | .error e => .error (actions, e)
        | .ok false => .ok Json.null
        | .ok true =>
          match litValue b with
          | .ok s => .ok (Json.str s)
          | .error e => .error (actions, e)

/-- The guarded body of extract_bookmarks_and_actions. -/
def ebaBody (config : Json) :
    Except (List (String × Json) × PyErr) (List (String × Json)) :=
  match pyIn "singleVisual" config with
  | .error e => .error ([], e)
  | .ok false => .ok []
  | .ok true =>
    match pyIndexJ config "singleVisual" with
    | .error e => .error ([], e)
    | .ok sv =>
      match pyIn "vcObjects" sv with
      | .error e => .error ([], e)
      | .ok false => .ok []
      | .ok true =>
        match pyIndexJ sv "vcObjects" with
        | .error e => .error ([], e)
        | .ok vc =>
          match pyIn "visualLink" vc with
          | .error e => .error ([], e)
          | .ok false => .ok []
          | .ok true =>
            match pyIndexJ vc "visualLink" with
            | .error e => .error ([], e)
            | .ok vl =>
              match pyIterList vl with
              | .error e => .error ([], e)
              | .ok lcs => ebaLoop lcs []

/-- PBIXVisualParser.extract_bookmarks_and_actions: total, the except
branch stores the exception text in the partial result. -/
def extract_bookmarks_and_actions (config : Json) : Json :=
  match ebaBody config with
  | .ok a => Json.obj a
  | .error (a, e) => Json.obj (objInsert "error" (.str (errMsg e)) a)

/-- The Visual record assembled by _enhance_visual_data. -/
structure EnhancedVisual where
  id : Json
  page_name : Json
  enhanced_type : Json
  original_type : Json
  position : Json
  data_roles : Json
  properties : Json
  text_content : Option String
  actions : Json
  config_size : Nat
  deriving Repr

/-- PBIXVisualParser._enhance_visual_data: classify-and-extract for one
visual candidate. -/
def _enhance_visual_data (visual : Json) (page_name : Json) :
    Except PyErr EnhancedVisual := do
  let config_str ← pyGet visual "properties" (Json.str (String.mk [lbChar, rbChar]))
  let config ← parse_visual_config config_str
  let idJ ← pyGet visual "id" Json.null
  let etype ← extract_visual_type config
  let otype ← pyGet visual "type" (Json.str "unknown")
  let x ← pyRound1 (← pyGet visual "x" (Json.num 0))
  let y ← pyRound1 (← pyGet visual "y" (Json.num 0))
  let w ← pyRound1 (← pyGet visual "width" (Json.num 0))
  let h ← pyRound1 (← pyGet visual "height" (Json.num 0))
  let z ← pyGet visual "z_order" (Json.num 0)
  let dr ← extract_data_roles config
  let props ← extract_visual_properties config
  let txt := extract_text_content config
  let acts := extract_bookmarks_and_actions config
  let csize ← pyLen config_str
  pure { id := idJ, page_name := page_name, enhanced_type := etype,
         original_type := otype,
         position := Json.obj [("x", x), ("y", y), ("width", w), ("height", h),
                               ("z_order", z)],
         data_roles := dr, properties := props, text_content := txt,
         actions := acts, config_size := csize }

/-
  PBIXUIExtractor._extract_layout_file (extract_pbix_ui.py): the encoding
  cascade and the JSON-or-truncated-raw-text parse step.  Byte payloads
  are lists of byte values; decoded text is a list of Unicode code
  points.
-/

/-- Is a byte a UTF-8 continuation byte. -/
def isCont (b : Nat) : Bool := 128 ≤ b && b < 192

/-- Strict UTF-16LE decoding as bytes.decode("utf-16le"): bytes are paired
little-endian; an odd tail or an unpaired surrogate fails. -/
def utf16leDecode : List Nat → Option (List Nat)
  | [] => some []
  | [_] => none
  | b0 :: b1 :: rest =>
    let u := b0 + 256 * b1
    if u < 0xD800 || 0xDFFF < u then (utf16leDecode rest).map (u :: ·)
    else if u ≤ 0xDBFF then
      match rest with
      | b2 :: b3 :: r =>
        let v := b2 + 256 * b3
        if 0xDC00 ≤ v && v ≤ 0xDFFF then
          (utf16leDecode r).map ((0x10000 + (u - 0xD800) * 1024 + (v - 0xDC00)) :: ·)
        else none
      | _ => none
    else none

/-- One UTF-8 decoding step: given a lead byte and the remaining bytes,
produce the code point and the bytes after the sequence, or fail.
Rejects continuation bytes in lead position, overlong forms, surrogates
and values above 0x10FFFF, as the CPython strict decoder does. -/
def utf8Step (b : Nat) (rest : List Nat) : Option (Nat × List Nat) :=
  if b < 0x80 then some (b, rest)
  else if b < 0xC2 then none
  else if b < 0xE0 then
    match rest with
    | c1 :: r =>
      if isCont c1 then some ((b - 0xC0) * 64 + (c1 - 0x80), r) else none
    | [] => none
  else if b < 0xF0 then
    match rest with
    | c1 :: c2 :: r =>
      if isCont c1 && isCont c2 && !(b == 0xE0 && c1 < 0xA0) &&
         !(b == 0xED && 0xA0 ≤ c1) then
        some (((b - 0xE0) * 64 + (c1 - 0x80)) * 64 + (c2 - 0x80), r)
      else none
    | _ => none
  else if b < 0xF5 then
    match rest with
    | c1 :: c2 :: c3 :: r =>
      if isCont c1 && isCont c2 && isCont c3 && !(b == 0xF0 && c1 < 0x90) &&
         !(b == 0xF4 && 0x90 ≤ c1) then
        some ((((b - 0xF0) * 64 + (c1 - 0x80)) * 64 + (c2 - 0x80)) * 64 + (c3 - 0x80), r)
      else none
    | _ => none
  else none

theorem utf8Step_len (b : Nat) (rest : List Nat) (cp : Nat) (r : List Nat)
    (h : utf8Step b rest = some (cp, r)) : r.length ≤ rest.length := by
  unfold utf8Step at h
  repeat' split at h
  all_goals simp_all
  all_goals omega

/-- Strict UTF-8 decoding as bytes.decode("utf-8"). -/
def utf8Decode : List Nat → Option (List Nat)
  | [] => some []
  | b :: rest =>
    match h : utf8Step b rest with
    | some (cp, r) => (utf8Decode r).map (cp :: ·)
    | none => none
termination_by l => l.length
decreasing_by
  have := utf8Step_len _ _ _ _ h
  simp_arith
  omega

/-- Lossy UTF-8 decoding as bytes.decode("utf-8", errors="ignore"): an
undecodable byte is dropped and decoding resumes at the next byte
(CPython may drop an invalid multi-byte prefix as one unit; the
resynchronisation granularity does not affect any stated property). -/
def utf8DecodeIgnore : List Nat → List Nat
  | [] => []
  | b :: rest =>
    match h : utf8Step b rest with
    | some (cp, r) => cp :: utf8DecodeIgnore r
    | none => utf8DecodeIgnore rest
termination_by l => l.length
decreasing_by
  · have := utf8Step_len _ _ _ _ h
    simp_arith
    omega
  · simp_arith

/-- The encoding cascade of _extract_layout_file: try UTF-16LE, then
strict UTF-8, then the lossy ignore decode, which cannot fail. -/
def decode_cascade (content : List Nat) : List Nat :=
  match utf16leDecode content with
  | some t => t
  | none =>
    match utf8Decode content with
    | some t => t
    | none => utf8DecodeIgnore content

/-- Modelled on the specification wording only, for comparison with the
source: a lossy decode that replaces each undecodable sequence with the
Unicode replacement character U+FFFD instead of failing (the semantics of
errors="replace"). -/
def utf8_decode_replace_spec : List Nat → List Nat
  | [] => []
  | b :: rest =>
    match h : utf8Step b rest with
    | some (cp, r) => cp :: utf8_decode_replace_spec r
    | none => 0xFFFD :: utf8_decode_replace_spec rest
termination_by l => l.length
decreasing_by
  · have := utf8Step_len _ _ _ _ h
    simp_arith
    omega
  · simp_arith

/-
  setup_powerbi_mcp_db.py: page-visual resolver, power-query source
  classifier, and the relational projector.

  The SQLite store is modelled per table: the three tables keyed by a
  natural primary key (pages, visualizations, custom visuals) as row
  lists with replace-on-conflict insertion, and the four tables keyed by
  an AUTOINCREMENT surrogate id (dax measures, calculated columns,
  relationships, power query) as append-only tables carrying their next
  id.  INSERT OR REPLACE conflicts exactly when all primary-key columns
  compare equal and none is NULL, following the SQLite comparison rule
  that NULL equals nothing.  A TEXT column holding json.dumps output is
  modelled by the JSON value itself (dumps is deterministic, so this
  preserves every row-count and equality property stated below).
-/

/-- Container loop of extract_page_from_visual: does any container id in
the list stringify to the visual id. -/
def findContainer (vid : String) : List Json → Except PyErr Bool
  | [] => .ok false
  | c :: rest => do
    let cid ← pyGet c "id" (Json.str "")
    if pyStr cid == vid then pure true else findContainer vid rest

/-- Page loop of extract_page_from_visual: the first page whose raw
visualContainers list carries a matching id returns its name. -/
def findPageLoop (vid : String) : List Json → Except PyErr (Option Json)
  | [] => .ok none
  | page :: rest => do
    let raw_data ← pyGet page "raw_data" (Json.obj [])
    let vcsJ ← pyGet raw_data "visualContainers" (Json.arr [])
    let cl ← pyIterList vcsJ
    let found ← findContainer vid cl
    if found then do
      let n ← pyIndexJ page "name"
      pure (some n)
    else findPageLoop vid rest

/-- The default arm of the resolver: the first page name when any page
exists, otherwise the literal Unknown marker. -/
def firstPageOrUnknown (pages : Json) : Except PyErr Json :=
  if pyTruthy pages then do
    let p0 ← pyIdx pages 0
    pyIndexJ p0 "name"
  else .ok (Json.str "Unknown")

/-- The positional fallback chain of extract_page_from_visual: substring
tests for sections[0] through sections[3] in order, each later arm also
requiring enough pages, then the default arm. -/
def positionalFallback (path pages : Json) : Except PyErr Json := do
  let b0 ← pyIn "sections[0]" path
  if b0 then firstPageOrUnknown pages
  else do
    let b1 ← pyIn "sections[1]" path
    let c1 ← (if b1 then do
        let n ← pyLen pages
        pure (decide (1 < n))
      else pure false)
    if c1 then do
      let p ← pyIdx pages 1
      pyIndexJ p "name"
    else do
      let b2 ← pyIn "sections[2]" path
      let c2 ← (if b2 then do
          let n ← pyLen pages
          pure (decide (2 < n))
        else pure false)
      if c2 then do
        let p ← pyIdx pages 2
        pyIndexJ p "name"
      else do
        let b3 ← pyIn "sections[3]" path
        let c3 ← (if b3 then do
            let n ← pyLen pages
            pure (decide (3 < n))
          else pure false)
        if c3 then do
          let p ← pyIdx pages 3
          pyIndexJ p "name"
        else firstPageOrUnknown pages

/-- extract_page_from_visual: match the stringified visual id against the
pages raw visual-container lists, then fall back to the positional
heuristic on the discovery path. -/
def extract_page_from_visual (visual pages : Json) : Except PyErr Json := do
  let idJ ← pyGet visual "id" (Json.str "")
  let visual_id := pyStr idJ
  let pageList ← pyIterList pages
  let m ← findPageLoop visual_id pageList
  match m with
  | some n => pure n
  | none => do
    let path ← pyGet visual "path" (Json.str "")
    positionalFallback path pages

/-- extract_source_type: classify an M expression by the first matching
source marker, in the fixed order of the source conditional chain. -/
def extract_source_type (m : Json) : Except PyErr String := do
  let b1 ← pyIn "Excel.Workbook" m
  if b1 then pure "Excel"
  else do
    let b2 ← pyIn "AzureStorage.BlobContents" m
    if b2 then pure "Azure Blob Storage"
    else do
      let b3 ← pyIn "Table.FromRows" m
      if b3 then pure "Embedded Table"
      else do
        let b4 ← pyIn "Sql.Database" m
        if b4 then pure "SQL Database"
        else do
          let b5 ← pyIn "Web.Contents" m
          if b5 then pure "Web Source"
          else pure "Other"

/-- An append-only table with an AUTOINCREMENT integer primary key. -/
structure AutoTable where
  nextId : Nat
  rows : List (Nat × List Json)
  deriving Repr

/-- INSERT into an AUTOINCREMENT table: the fresh surrogate id never
conflicts, so INSERT OR REPLACE always appends. -/
def autoIns (r : List Json) (t : AutoTable) : AutoTable :=
  { nextId := t.nextId + 1, rows := t.rows ++ [(t.nextId, r)] }

/-- No key column is NULL. -/
def keyNoNull (k : List Json) : Bool :=
  k.all (fun v => !(beqJ v Json.null))

/-- SQLite primary-key conflict between a new row and a stored row under a
key projection: all key columns equal and none NULL. -/
def rowConflict (key : List Json → List Json) (r x : List Json) : Bool :=
  beqJL (key x) (key r) && keyNoNull (key r)

/-- INSERT OR REPLACE for a naturally keyed table: replace the first
conflicting row in place, else append. -/
def upsertKeyed (key : List Json → List Json) (r : List Json) :
    List (List Json) → List (List Json)
  | [] => [r]
  | x :: xs => if rowConflict key r x then r :: xs else x :: upsertKeyed key r xs

/-- Key projection: first column. -/
def key1 (r : List Json) : List Json := r.take 1

/-- Key projection: first two columns. -/
def key2 (r : List Json) : List Json := r.take 2

/-- The relational store: the seven powerbi tables plus the derived-views
flag (CREATE VIEW IF NOT EXISTS carries no row state). -/
structure Store where
  pages : List (List Json)
  visualizations : List (List Json)
  custom_visuals : List (List Json)
  dax_measures : AutoTable
  calculated_columns : AutoTable
  relationships : AutoTable
  power_query : AutoTable
  views : Bool
  deriving Repr

/-- A store with the seven tables created and empty. -/
def emptyStore : Store :=
  { pages := [], visualizations := [], custom_visuals := [],
    dax_measures := ⟨1, []⟩, calculated_columns := ⟨1, []⟩,
    relationships := ⟨1, []⟩, power_query := ⟨1, []⟩, views := false }

/-- The row-compute-then-insert loop shape shared by every table: compute
the parameter tuple for one item, apply the insert, continue.  Inserts
are total; only row computation can raise. -/
def insertAll {α : Type} (mk : α → Except PyErr (List Json))
    (upd : List Json → Store → Store) : List α → Store → Except PyErr Store
  | [], s => .ok s
  | x :: xs, s => do
    let r ← mk x
    insertAll mk upd xs (upd r s)

/-- The powerbi_pages parameter tuple for one page record
(page_id, page_name, display_name, ordinal, width, height, visual_count,
background_config, filters_config). -/
def pageRow (page : Json) : Except PyErr (List Json) := do
  let raw_data ← pyGet page "raw_data" (Json.obj [])
  let name ← pyIndexJ page "name"
  let display ← pyGet raw_data "displayName" name
  let ordinal ← pyIndexJ page "ordinal"
  let width ← pyIndexJ page "width"
  let height ← pyIndexJ page "height"
  let vcount ← pyIndexJ page "visual_count"
  let background ← pyGet page "background" (Json.obj [])
  let filters ← pyGet raw_data "filters" (Json.str "[]")
  pure [name, name, display, ordinal, width, height, vcount, background, filters]

/-- The powerbi_visualizations parameter tuple for one visual record
(visual_id, page_id, visual_type, enhanced_type, x, y, width, height,
z_order, text_content, data_roles_count, bookmark_action, config_json). -/
def visualRow (ui : Json) (visual : Json) : Except PyErr (List Json) := do
  let pagesJ ← pyGet ui "pages" (Json.arr [])
  let page_id ← extract_page_from_visual visual pagesJ
  let idJ ← pyGet visual "id" (Json.str "")
  let typ ← pyGet visual "type" (Json.str "unknown")
  let etyp ← pyGet visual "enhanced_type" (Json.str "Unknown")
  let pos ← pyGet visual "position" (Json.obj [])
  let x ← pyGet pos "x" (Json.num 0)
  let y ← pyGet pos "y" (Json.num 0)
  let w ← pyGet pos "width" (Json.num 0)
  let h ← pyGet pos "height" (Json.num 0)
  let z ← pyGet pos "z_order" (Json.num 0)
  let txt ← pyGet visual "text_content" Json.null
  let drc ← pyGet visual "data_roles_count" (Json.num 0)
  let bm ← pyGet visual "bookmark_action" Json.null
  let cfg ← pyGet visual "raw_config" (Json.obj [])
  pure [Json.str (pyStr idJ), page_id, typ, etyp, x, y, w, h, z, txt, drc, bm, cfg]

/-- The powerbi_custom_visuals parameter tuple
(file_path, visual_name, visual_version, config_json). -/
def customRow (cv : Json) : Except PyErr (List Json) := do
  let config ← pyGet cv "config" (Json.obj [])
  let file ← pyGet cv "file" (Json.str "")
  let nameV ← pyGet config "name" (Json.str "Unknown")
  let ver ← pyGet config "version" (Json.str "Unknown")
  pure [file, nameV, ver, config]

/-- The powerbi_dax_measures parameter tuple. -/
def measureRow (m : Json) : Except PyErr (List Json) := do
  let t ← pyGet m "table" (Json.str "")
  let n ← pyGet m "name" (Json.str "")
  let e ← pyGet m "expression" (Json.str "")
  let d ← pyGet m "description" (Json.str "")
  pure [t, n, e, d]

/-- The powerbi_calculated_columns parameter tuple. -/
def columnRow (c : Json) : Except PyErr (List Json) := do
  let t ← pyGet c "table" (Json.str "")
  let n ← pyGet c "name" (Json.str "")
  let e ← pyGet c "expression" (Json.str "")
  let d ← pyGet c "data_type" (Json.str "")
  pure [t, n, e, d]

/-- The powerbi_relationships parameter tuple. -/
def relRow (r : Json) : Except PyErr (List Json) := do
  let ft ← pyGet r "from_table" (Json.str "")
  let fc ← pyGet r "from_column" (Json.str "")
  let tt ← pyGet r "to_table" (Json.str "")
  let tc ← pyGet r "to_column" (Json.str "")
  let ca ← pyGet r "cardinality" (Json.str "")
  let ia ← pyGet r "is_active" (Json.bool true)
  pure [ft, fc, tt, tc, ca, ia]

/-- The powerbi_power_query parameter tuple for one power_query item
(source_name, m_expression, source_type). -/
def pqRow (p : String × Json) : Except PyErr (List Json) :=
  match p.2 with
  | .obj _ => do
    let m ← pyGet p.2 "Expression" (Json.str (pyStr p.2))
    let st ← extract_source_type m
    pure [Json.str p.1, m, Json.str st]
  | _ => do
    let m := Json.str (pyStr p.2)
    let st ← extract_source_type m
    pure [Json.str p.1, m, Json.str st]

/-- create_ui_tables: project pages, visualizations and custom visuals
with replace-on-conflict writes keyed by natural identity. -/
def create_ui_tables (ui : Json) (s : Store) : Except PyErr Store := do
  let pagesRaw ← pyGet ui "pages" (Json.arr [])
  let pages ← pyIterList pagesRaw
  let s1 ← insertAll pageRow
    (fun r st => { st with pages := upsertKeyed key1 r st.pages }) pages s
  let visRaw ← pyGet ui "visualizations" (Json.arr [])
  let vis ← pyIterList visRaw
  let s2 ← insertAll (visualRow ui)
    (fun r st => { st with visualizations := upsertKeyed key2 r st.visualizations }) vis s1
  let cvRaw ← pyGet ui "custom_visuals" (Json.arr [])
  let cvs ← pyIterList cvRaw
  insertAll customRow
    (fun r st => { st with custom_visuals := upsertKeyed key1 r st.custom_visuals }) cvs s2

/-- create_metadata_tables: project measures, calculated columns,
relationships and power-query sources; each of these tables has an
AUTOINCREMENT surrogate key, so the writes append. -/
def create_metadata_tables (dm : Json) (s : Store) : Except PyErr Store := do
  let ms ← pyIterList (← pyGet dm "measures" (Json.arr []))
  let s1 ← insertAll measureRow
    (fun r st => { st with dax_measures := autoIns r st.dax_measures }) ms s
  let cs ← pyIterList (← pyGet dm "calculated_columns" (Json.arr []))
  let s2 ← insertAll columnRow
    (fun r st => { st with calculated_columns := autoIns r st.calculated_columns }) cs s1
  let rs ← pyIterList (← pyGet dm "relationships" (Json.arr []))
  let s3 ← insertAll relRow
    (fun r st => { st with relationships := autoIns r st.relationships }) rs s2
  let pq ← pyGet dm "power_query" (Json.obj [])
  match pq with
  | .obj items =>
    insertAll pqRow
      (fun r st => { st with power_query := autoIns r st.power_query }) items s3
  | .str s0 =>
    let row := [Json.str "power_query_error", Json.str s0, Json.str "Error"]
    .ok { s3 with power_query := autoIns row s3.power_query }
  | _ => .ok s3

/-- create_powerbi_views: CREATE VIEW IF NOT EXISTS three derived views;
no row state, idempotent. -/
def create_powerbi_views (s : Store) : Store :=
  { s with views := true }

/-- The body of the setup transaction: every write of one projection run,
followed by the single commit point. -/
def txnBody (ui dm : Json) (s : Store) : Except PyErr Store := do
  let s1 ← create_ui_tables ui s
  let s2 ← create_metadata_tables dm s1
  pure (create_powerbi_views s2)

/-- setup_powerbi_mcp_database: run all writes inside one transaction;
commit on success, roll back to the prior store state on any error and
report the run as failed (the Bool component). -/
def setup_powerbi_mcp_database (ui dm : Json) (db : Store) : Store × Bool :=
  match txnBody ui dm db with
  | .ok s => (s, true)
  | .error _ => (db, false)

/-- The parse step of _extract_layout_file applied to the decoded member
text: whitespace-only text yields nothing; valid JSON is returned; a JSON
failure yields the raw_content record with the text truncated to the
first 1000 characters plus an ellipsis when longer. -/
def parse_layout_text (text : String) : Option Json :=
  if strippedTruthy text then
    match jsonParse text with
    | some j => some j
    | none =>
      some (Json.obj [("raw_content",
        Json.str (if 1000 < text.data.length
                  then String.mk (text.data.take 1000 ++ ['.', '.', '.'])
                  else text))])
  else none

/-
  Derived definitions used by the theorem statements below.
-/

/-- Modelled on the specification wording only, for comparison with the
source: Python str.title title-casing, which uppercases the first letter
of every alphabetic run and lowercases the rest. -/
def py_title_spec (s : String) : String :=
  String.mk (go s.data false)
where
  go : List Char → Bool → List Char
  | [], _ => []
  | c :: r, prevAlpha =>
    if c.isAlpha then (if prevAlpha then c.toLower else c.toUpper) :: go r true
    else c :: go r false

/-- The rows inserted by one run into a keyed table, applied in order. -/
def runUpserts (key : List Json → List Json) (rs : List (List Json))
    (t : List (List Json)) : List (List Json) :=
  rs.foldl (fun t r => upsertKeyed key r t) t

/-- The rows appended by one run into an AUTOINCREMENT table. -/
def runAuto (rs : List (List Json)) (t : AutoTable) : AutoTable :=
  rs.foldl (fun t r => autoIns r t) t

/-- Row computation mapped over the items of one table, failing at the
first failing item. -/
def rowsMapM {α : Type} (mk : α → Except PyErr (List Json)) :
    List α → Except PyErr (List (List Json))
  | [] => .ok []
  | x :: xs => do
    let r ← mk x
    let rs ← rowsMapM mk xs
    pure (r :: rs)

/-- The page items read from the canonical model document. -/
def pageItems (ui : Json) : Except PyErr (List Json) := do
  pyIterList (← pyGet ui "pages" (Json.arr []))

/-- The powerbi_pages rows computed from the canonical model. -/
def pageRowsOf (ui : Json) : Except PyErr (List (List Json)) := do
  rowsMapM pageRow (← pageItems ui)

/-- The powerbi_visualizations rows computed from the canonical model. -/
def visualRowsOf (ui : Json) : Except PyErr (List (List Json)) := do
  rowsMapM (visualRow ui) (← pyIterList (← pyGet ui "visualizations" (Json.arr [])))

/-- The powerbi_custom_visuals rows computed from the canonical model. -/
def customRowsOf (ui : Json) : Except PyErr (List (List Json)) := do
  rowsMapM customRow (← pyIterList (← pyGet ui "custom_visuals" (Json.arr [])))

/-- The powerbi_dax_measures rows computed from the data model. -/
def measureRowsOf (dm : Json) : Except PyErr (List (List Json)) := do
  rowsMapM measureRow (← pyIterList (← pyGet dm "measures" (Json.arr [])))

/-- The powerbi_calculated_columns rows computed from the data model. -/
def columnRowsOf (dm : Json) : Except PyErr (List (List Json)) := do
  rowsMapM columnRow (← pyIterList (← pyGet dm "calculated_columns" (Json.arr [])))

/-- The powerbi_relationships rows computed from the data model. -/
def relRowsOf (dm : Json) : Except PyErr (List (List Json)) := do
  rowsMapM relRow (← pyIterList (← pyGet dm "relationships" (Json.arr [])))

/-- The powerbi_power_query rows computed from the data model. -/
def pqRowsOf (dm : Json) : Except PyErr (List (List Json)) := do
  let pq ← pyGet dm "power_query" (Json.obj [])
  match pq with
  | .obj items => rowsMapM pqRow items
  | .str s0 => .ok [[Json.str "power_query_error", Json.str s0, Json.str "Error"]]
  | _ => .ok []

/-- The store produced by one successful projection run over the given
row lists. -/
def applyProjection (prs vrs crs ms cs rs pqs : List (List Json)) (s : Store) : Store :=
  { pages := runUpserts key1 prs s.pages,
    visualizations := runUpserts key2 vrs s.visualizations,
    custom_visuals := runUpserts key1 crs s.custom_visuals,
    dax_measures := runAuto ms s.dax_measures,
    calculated_columns := runAuto cs s.calculated_columns,
    relationships := runAuto rs s.relationships,
    power_query := runAuto pqs s.power_query,
    views := true }

/-- A page as the resolver claim describes it: a name and the ids carried
by its raw visual-container list. -/
structure PageSpec where
  pname : Json
  cids : List Json

/-- The raw container record carrying one id. -/
def mkContainerJ (cid : Json) : Json := Json.obj [("id", cid)]

/-- The page document built from a `PageSpec`. -/
def mkPageJ (p : PageSpec) : Json :=
  Json.obj [("name", p.pname),
            ("raw_data", Json.obj [("visualContainers",
              Json.arr (p.cids.map mkContainerJ))])]

/-- The visual document carrying an id and a discovery path. -/
def mkVisualJ (idJ : Json) (path : String) : Json :=
  Json.obj [("id", idJ), ("path", Json.str path)]

/-- Does a page carry a container whose stringified id equals the
stringified visual id. -/
def pageMatches (vid : String) (p : PageSpec) : Bool :=
  p.cids.any (fun c => pyStr c == vid)

/-- The name of the page at an ordinal, or the Unknown marker. -/
def nameAt (ps : List PageSpec) (k : Nat) : Json :=
  match ps.get? k with
  | some p => p.pname
  | none => Json.str "Unknown"

/-- The positional arm of the resolver fallback chain, as the amended
claim states it: substring tests for section indices 0 through 3 in
order, an indexed arm firing only when that many pages exist, then the
first page (or Unknown when there are no pages). -/
def positionalSpecArm (path : String) (ps : List PageSpec) : Json :=
  if strHasSub path "sections[0]" then nameAt ps 0
  else if strHasSub path "sections[1]" && decide (1 < ps.length) then nameAt ps 1
  else if strHasSub path "sections[2]" && decide (2 < ps.length) then nameAt ps 2
  else if strHasSub path "sections[3]" && decide (3 < ps.length) then nameAt ps 3
  else nameAt ps 0

/-- The resolver as an ordered fallback chain: exact id match against the
pages in order, then the positional arm on the discovery path. -/
def resolveSpec (vid : String) (path : String) (ps : List PageSpec) : Json :=
  match ps.find? (pageMatches vid) with
  | some p => p.pname
  | none => positionalSpecArm path ps

/-- One binding per field reference per role: the flattening of a
projections map described by the data-roles claim. -/
def projFlatten (items : List (String × Json)) : List Json :=
  (items.map (fun p =>
    match p.2 with
    | .arr fs => fs.map (fun f => Json.obj [("role", Json.str p.1), ("field", f)])
    | _ => [])).flatten

/-- Whether the configuration string fails the parse step of
parse_visual_config: the direct JSON parse for brace-initial strings,
the parse of the double-quote-stripped string otherwise. -/
def parseFailsOnConfig (s : String) : Prop :=
  if leadsWith [lbChar] s.data then jsonParse s = none
  else jsonParse (stripChar dqChar s) = none

/-
  Theorems.  First the soundness of the boolean Json equality and the
  decidability instances built from it, then general lemmas, then one
  theorem (with counterexample and witness where required) per claim.
-/

theorem beqJ_eq_aux :
    ∀ n, ∀ a b : Json, sizeOf a ≤ n → (beqJ a b = true ↔ a = b) := by
  intro n
  induction n with
  | zero =>
    intro a b h
    have hpos : 0 < sizeOf a := by
      cases a <;> simp_arith
    omega
  | succ n ih =>
    intro a b h
    have hlist : ∀ l1 l2 : List Json, (∀ x ∈ l1, sizeOf x ≤ n) →
        (beqJL l1 l2 = true ↔ l1 = l2) := by
      intro l1
      induction l1 with
      | nil => intro l2 _; cases l2 <;> simp [beqJL]
      | cons x xs ihx =>
        intro l2 hx
        cases l2 with
        | nil => simp [beqJL]
        | cons y ys =>
          have h1 := ih x y (hx x (by simp))
          have h2 := ihx ys (fun z hz => hx z (by simp [hz]))
          simp [beqJL, h1, h2]
    have hobj : ∀ l1 l2 : List (String × Json), (∀ x ∈ l1, sizeOf x.2 ≤ n) →
        (beqJO l1 l2 = true ↔ l1 = l2) := by
      intro l1
      induction l1 with
      | nil => intro l2 _; cases l2 <;> simp [beqJO]
      | cons x xs ihx =>
        intro l2 hx
        cases l2 with
        | nil => simp [beqJO]
        | cons y ys =>
          obtain ⟨k, v⟩ := x
          obtain ⟨k2, v2⟩ := y
          have h1 := ih v v2 (by simpa using hx (k, v) (by simp))
          have h2 := ihx ys (fun z hz => hx z (by simp [hz]))
          simp only [beqJO, Bool.and_eq_true, beq_iff_eq, List.cons.injEq,
            Prod.mk.injEq, h1, h2]
    cases a <;> cases b <;> try (simp [beqJ]; done)
    case arr.arr l1 l2 =>
      have hx : ∀ x ∈ l1, sizeOf x ≤ n := by
        intro x hxm
        have hs := List.sizeOf_lt_of_mem hxm
        have hz : sizeOf (Json.arr l1) = 1 + sizeOf l1 := by simp
        omega
      simpa [beqJ] using hlist l1 l2 hx
    case obj.obj l1 l2 =>
      have hx : ∀ x ∈ l1, sizeOf x.2 ≤ n := by
        intro x hxm
        have hs := List.sizeOf_lt_of_mem hxm
        have hx2 : sizeOf x.2 < sizeOf x := by
          obtain ⟨xa, xb⟩ := x
          simp_arith
        have hz : sizeOf (Json.obj l1) = 1 + sizeOf l1 := by simp
        omega
      simpa [beqJ] using hobj l1 l2 hx

theorem beqJ_eq (a b : Json) : beqJ a b = true ↔ a = b :=
  beqJ_eq_aux (sizeOf a) a b (Nat.le_refl _)

theorem beqJL_eq (a b : List Json) : beqJL a b = true ↔ a = b := by
  induction a generalizing b with
  | nil => cases b <;> simp [beqJL]
  | cons x xs ihx =>
    cases b with
    | nil => simp [beqJL]
    | cons y ys => simp [beqJL, beqJ_eq, ihx]

instance : DecidableEq Json := fun a b =>
  decidable_of_iff (beqJ a b = true) (beqJ_eq a b)

deriving instance DecidableEq for AutoTable
deriving instance DecidableEq for Store
deriving instance DecidableEq for EnhancedVisual

instance {e a : Type} [DecidableEq e] [DecidableEq a] : DecidableEq (Except e a) :=
  fun x y =>
    match x, y with
    | .ok v, .ok w => decidable_of_iff (v = w) (by simp)
    | .error v, .error w => decidable_of_iff (v = w) (by simp)
    | .ok _, .error _ => isFalse (by intro h; cases h)
    | .error _, .ok _ => isFalse (by intro h; cases h)

@[simp]
theorem bind_ok_exc {ε α β : Type} (a : α) (f : α → Except ε β) :
    (Except.ok a >>= f) = f a := rfl

@[simp]
theorem bind_err_exc {ε α β : Type} (e : ε) (f : α → Except ε β) :
    ((Except.error e : Except ε α) >>= f) = Except.error e := rfl

@[simp]
theorem pure_exc {ε α : Type} (a : α) : (pure a : Except ε α) = Except.ok a := rfl

@[simp]
theorem map_ok_exc {ε α β : Type} (f : α → β) (a : α) :
    ((Except.ok a : Except ε α).map f) = Except.ok (f a) := rfl

@[simp]
theorem map_err_exc {ε α β : Type} (f : α → β) (e : ε) :
    ((Except.error e : Except ε α).map f) = Except.error e := rfl

theorem rowConflict_iff (key : List Json → List Json) (r x : List Json) :
    rowConflict key r x = true ↔ (key x = key r ∧ keyNoNull (key r) = true) := by
  simp [rowConflict, beqJL_eq]

theorem length_upsertKeyed (key : List Json → List Json) (r : List Json)
    (t : List (List Json)) :
    (upsertKeyed key r t).length =
      if t.any (rowConflict key r) then t.length else t.length + 1 := by
  induction t with
  | nil => simp [upsertKeyed]
  | cons x xs ih =>
    cases h : rowConflict key r x
    · cases h2 : xs.any (rowConflict key r) <;>
        simp [upsertKeyed, h, ih, List.any_cons, h2]
    · simp [upsertKeyed, h, List.any_cons]

theorem any_conflict_upsert_self (key : List Json → List Json) (r : List Json)
    (t : List (List Json)) (h : keyNoNull (key r) = true) :
    (upsertKeyed key r t).any (rowConflict key r) = true := by
  induction t with
  | nil => simp [upsertKeyed, List.any_cons, rowConflict_iff, h]
  | cons x xs ih =>
    cases hx : rowConflict key r x
    · simp [upsertKeyed, hx, List.any_cons, ih]
    · simp [upsertKeyed, hx, List.any_cons, rowConflict_iff, h]

theorem any_conflict_upsert_mono (key : List Json → List Json)
    (q r : List Json) (t : List (List Json))
    (h : t.any (rowConflict key q) = true) :
    (upsertKeyed key r t).any (rowConflict key q) = true := by
  induction t with
  | nil => simp at h
  | cons x xs ih =>
    rw [List.any_cons, Bool.or_eq_true] at h
    cases hx : rowConflict key r x
    · rcases h with h | h
      · simp [upsertKeyed, hx, List.any_cons, h]
      · simp [upsertKeyed, hx, List.any_cons, ih h]
    · rcases h with h | h
      · have h1 := (rowConflict_iff key q x).mp h
        have h2 := (rowConflict_iff key r x).mp hx
        have hr : rowConflict key q r = true := by
          rw [rowConflict_iff]
          exact ⟨h2.1.symm.trans h1.1, h1.2⟩
        simp [upsertKeyed, hx, List.any_cons, hr]
      · simp [upsertKeyed, hx, List.any_cons, h]

theorem runUpserts_mono (key : List Json → List Json) (q : List Json)
    (rs : List (List Json)) (t : List (List Json))
    (h : t.any (rowConflict key q) = true) :
    (runUpserts key rs t).any (rowConflict key q) = true := by
  induction rs generalizing t with
  | nil => simpa [runUpserts] using h
  | cons r rest ih =>
    simp only [runUpserts, List.foldl_cons]
    exact ih _ (any_conflict_upsert_mono key q r t h)

theorem all_conflict_runUpserts (key : List Json → List Json)
    (rs : List (List Json)) (t : List (List Json))
    (hk : ∀ r ∈ rs, keyNoNull (key r) = true) :
    ∀ r ∈ rs, (runUpserts key rs t).any (rowConflict key r) = true := by
  induction rs generalizing t with
  | nil => intro r hr; cases hr
  | cons a rest ih =>
    intro r hr
    rcases List.mem_cons.mp hr with rfl | hr
    · have h1 := any_conflict_upsert_self key r t (hk r (by simp))
      simp only [runUpserts, List.foldl_cons]
      exact runUpserts_mono key r rest _ h1
    · simp only [runUpserts, List.foldl_cons]
      exact ih _ (fun x hx => hk x (by simp [hx])) r hr

theorem length_runUpserts_conflicts (key : List Json → List Json)
    (rs : List (List Json)) (t : List (List Json))
    (h : ∀ r ∈ rs, t.any (rowConflict key r) = true) :
    (runUpserts key rs t).length = t.length := by
  induction rs generalizing t with
  | nil => simp [runUpserts]
  | cons a rest ih =>
    simp only [runUpserts, List.foldl_cons]
    have hlen : (upsertKeyed key a t).length = t.length := by
      rw [length_upsertKeyed, if_pos (h a (by simp))]
    calc ((runUpserts key rest (upsertKeyed key a t))).length
        = (upsertKeyed key a t).length :=
          ih _ (fun r hr => any_conflict_upsert_mono key r a t (h r (by simp [hr])))
      _ = t.length := hlen

/-- Running the same keyed upserts a second time leaves the row count
unchanged, provided no key column is NULL. -/
theorem runUpserts_twice_length (key : List Json → List Json)
    (rs : List (List Json)) (t : List (List Json))
    (hk : ∀ r ∈ rs, keyNoNull (key r) = true) :
    (runUpserts key rs (runUpserts key rs t)).length = (runUpserts key rs t).length :=
  length_runUpserts_conflicts key rs _ (all_conflict_runUpserts key rs t hk)

theorem runAuto_rows_length (rs : List (List Json)) (t : AutoTable) :
    (runAuto rs t).rows.length = t.rows.length + rs.length := by
  induction rs generalizing t with
  | nil => simp [runAuto]
  | cons a rest ih =>
    simp only [runAuto, List.foldl_cons]
    rw [show (rest.foldl (fun t r => autoIns r t) (autoIns a t)) = runAuto rest (autoIns a t) from rfl,
      ih]
    simp [autoIns]
    omega

theorem insertAll_eq {α : Type} (mk : α → Except PyErr (List Json))
    (upd : List Json → Store → Store) (xs : List α) (s : Store) :
    insertAll mk upd xs s =
      (rowsMapM mk xs).map (fun rs => rs.foldl (fun s r => upd r s) s) := by
  induction xs generalizing s with
  | nil => rfl
  | cons x rest ih =>
    cases h : mk x with
    | error e => simp [insertAll, h, rowsMapM]
    | ok r =>
      cases hm : rowsMapM mk rest with
      | error e => simp [insertAll, h, ih, rowsMapM, hm]
      | ok rs => simp [insertAll, h, ih, rowsMapM, hm]

theorem foldl_pages_field (rs : List (List Json)) (s : Store) :
    rs.foldl (fun s r => { s with pages := upsertKeyed key1 r s.pages }) s =
      { s with pages := runUpserts key1 rs s.pages } := by
  induction rs generalizing s with
  | nil => rfl
  | cons a rest ih =>
    simp only [runUpserts, List.foldl_cons]
    rw [ih]
    rfl

theorem foldl_visualizations_field (rs : List (List Json)) (s : Store) :
    rs.foldl (fun s r => { s with visualizations := upsertKeyed key2 r s.visualizations }) s =
      { s with visualizations := runUpserts key2 rs s.visualizations } := by
  induction rs generalizing s with
  | nil => rfl
  | cons a rest ih =>
    simp only [runUpserts, List.foldl_cons]
    rw [ih]
    rfl

theorem foldl_custom_field (rs : List (List Json)) (s : Store) :
    rs.foldl (fun s r => { s with custom_visuals := upsertKeyed key1 r s.custom_visuals }) s =
      { s with custom_visuals := runUpserts key1 rs s.custom_visuals } := by
  induction rs generalizing s with
  | nil => rfl
  | cons a rest ih =>
    simp only [runUpserts, List.foldl_cons]
    rw [ih]
    rfl

theorem foldl_dax_field (rs : List (List Json)) (s : Store) :
    rs.foldl (fun s r => { s with dax_measures := autoIns r s.dax_measures }) s =
      { s with dax_measures := runAuto rs s.dax_measures } := by
  induction rs generalizing s with
  | nil => rfl
  | cons a rest ih =>
    simp only [runAuto, List.foldl_cons]
    rw [ih]
    rfl

theorem foldl_columns_field (rs : List (List Json)) (s : Store) :
    rs.foldl (fun s r => { s with calculated_columns := autoIns r s.calculated_columns }) s =
      { s with calculated_columns := runAuto rs s.calculated_columns } := by
  induction rs generalizing s with
  | nil => rfl
  | cons a rest ih =>
    simp only [runAuto, List.foldl_cons]
    rw [ih]
    rfl

theorem foldl_relationships_field (rs : List (List Json)) (s : Store) :
    rs.foldl (fun s r => { s with relationships := autoIns r s.relationships }) s =
      { s with relationships := runAuto rs s.relationships } := by
  induction rs generalizing s with
  | nil => rfl
  | cons a rest ih =>
    simp only [runAuto, List.foldl_cons]
    rw [ih]
    rfl

theorem foldl_pq_field (rs : List (List Json)) (s : Store) :
    rs.foldl (fun s r => { s with power_query := autoIns r s.power_query }) s =
      { s with power_query := runAuto rs s.power_query } := by
  induction rs generalizing s with
  | nil => rfl
  | cons a rest ih =>
    simp only [runAuto, List.foldl_cons]
    rw [ih]
    rfl

theorem create_ui_tables_spec (ui : Json) (s : Store)
    (prs vrs crs : List (List Json))
    (hp : pageRowsOf ui = .ok prs) (hv : visualRowsOf ui = .ok vrs)
    (hc : customRowsOf ui = .ok crs) :
    create_ui_tables ui s = .ok
      { s with pages := runUpserts key1 prs s.pages,
               visualizations := runUpserts key2 vrs s.visualizations,
               custom_visuals := runUpserts key1 crs s.custom_visuals } := by
  unfold pageRowsOf pageItems at hp
  unfold visualRowsOf at hv
  unfold customRowsOf at hc
  cases hg1 : pyGet ui "pages" (Json.arr []) with
  | error e => rw [hg1] at hp; simp at hp
  | ok v1 =>
    rw [hg1] at hp
    simp only [bind_ok_exc] at hp
    cases hi1 : pyIterList v1 with
    | error e => rw [hi1] at hp; simp at hp
    | ok items1 =>
      rw [hi1] at hp
      simp only [bind_ok_exc] at hp
      cases hg2 : pyGet ui "visualizations" (Json.arr []) with
      | error e => rw [hg2] at hv; simp at hv
      | ok v2 =>
        rw [hg2] at hv
        simp only [bind_ok_exc] at hv
        cases hi2 : pyIterList v2 with
        | error e => rw [hi2] at hv; simp at hv
        | ok items2 =>
          rw [hi2] at hv
          simp only [bind_ok_exc] at hv
          cases hg3 : pyGet ui "custom_visuals" (Json.arr []) with
          | error e => rw [hg3] at hc; simp at hc
          | ok v3 =>
            rw [hg3] at hc
            simp only [bind_ok_exc] at hc
            cases hi3 : pyIterList v3 with
            | error e => rw [hi3] at hc; simp at hc
            | ok items3 =>
              rw [hi3] at hc
              simp only [bind_ok_exc] at hc
              unfold create_ui_tables
              rw [hg1]
              simp only [bind_ok_exc]
              rw [hi1]
              simp only [bind_ok_exc]
              rw [insertAll_eq, hp]
              simp only [map_ok_exc, bind_ok_exc]
              rw [foldl_pages_field, hg2]
              simp only [bind_ok_exc]
              rw [hi2]
              simp only [bind_ok_exc]
              rw [insertAll_eq, hv]
              simp only [map_ok_exc, bind_ok_exc]
              rw [foldl_visualizations_field, hg3]
              simp only [bind_ok_exc]
              rw [hi3]
              simp only [bind_ok_exc]
              rw [insertAll_eq, hc]
              simp only [map_ok_exc, bind_ok_exc]
              rw [foldl_custom_field]

theorem create_metadata_tables_spec (dm : Json) (s : Store)
    (ms cs rs pqs : List (List Json))
    (hm : measureRowsOf dm = .ok ms) (hcc : columnRowsOf dm = .ok cs)
    (hr : relRowsOf dm = .ok rs) (hq : pqRowsOf dm = .ok pqs) :
    create_metadata_tables dm s = .ok
      { s with dax_measures := runAuto ms s.dax_measures,
               calculated_columns := runAuto cs s.calculated_columns,
               relationships := runAuto rs s.relationships,
               power_query := runAuto pqs s.power_query } := by
  unfold measureRowsOf at hm
  unfold columnRowsOf at hcc
  unfold relRowsOf at hr
  unfold pqRowsOf at hq
  cases hg1 : pyGet dm "measures" (Json.arr []) with
  | error e => rw [hg1] at hm; simp at hm
  | ok v1 =>
    rw [hg1] at hm
    simp only [bind_ok_exc] at hm
    cases hi1 : pyIterList v1 with
    | error e => rw [hi1] at hm; simp at hm
    | ok items1 =>
      rw [hi1] at hm
      simp only [bind_ok_exc] at hm
      cases hg2 : pyGet dm "calculated_columns" (Json.arr []) with
      | error e => rw [hg2] at hcc; simp at hcc
      | ok v2 =>
        rw [hg2] at hcc
        simp only [bind_ok_exc] at hcc
        cases hi2 : pyIterList v2 with
        | error e => rw [hi2] at hcc; simp at hcc
        | ok items2 =>
          rw [hi2] at hcc
          simp only [bind_ok_exc] at hcc
          cases hg3 : pyGet dm "relationships" (Json.arr []) with
          | error e => rw [hg3] at hr; simp at hr
          | ok v3 =>
            rw [hg3] at hr
            simp only [bind_ok_exc] at hr
            cases hi3 : pyIterList v3 with
            | error e => rw [hi3] at hr; simp at hr
            | ok items3 =>
              rw [hi3] at hr
              simp only [bind_ok_exc] at hr
              cases hg4 : pyGet dm "power_query" (Json.obj []) with
              | error e => rw [hg4] at hq; simp at hq
              | ok pq =>
                rw [hg4] at hq
                simp only [bind_ok_exc] at hq
                unfold create_metadata_tables
                rw [hg1]
                simp only [bind_ok_exc]
                rw [hi1]
                simp only [bind_ok_exc]
                rw [insertAll_eq, hm]
                simp only [map_ok_exc, bind_ok_exc]
                rw [foldl_dax_field, hg2]
                simp only [bind_ok_exc]
                rw [hi2]
                simp only [bind_ok_exc]
                rw [insertAll_eq, hcc]
                simp only [map_ok_exc, bind_ok_exc]
                rw [foldl_columns_field, hg3]
                simp only [bind_ok_exc]
                rw [hi3]
                simp only [bind_ok_exc]
                rw [insertAll_eq, hr]
                simp only [map_ok_exc, bind_ok_exc]
                rw [foldl_relationships_field, hg4]
                simp only [bind_ok_exc]
                cases pq with
                | obj items4 =>
                  simp only at hq
                  simp only [insertAll_eq, hq, map_ok_exc, foldl_pq_field]
                | str s0 =>
                  simp only at hq
                  cases hq
                  simp [runAuto, autoIns]
                | null =>
                  simp only at hq
                  cases hq
                  simp [runAuto]
                | bool b =>
                  simp only at hq
                  cases hq
                  simp [runAuto]
                | num n =>
                  simp only at hq
                  cases hq
                  simp [runAuto]
                | arr l =>
                  simp only at hq
                  cases hq
                  simp [runAuto]

theorem txnBody_spec (ui dm : Json) (db : Store)
    (prs vrs crs ms cs rs pqs : List (List Json))
    (hp : pageRowsOf ui = .ok prs) (hv : visualRowsOf ui = .ok vrs)
    (hc : customRowsOf ui = .ok crs)
    (hm : measureRowsOf dm = .ok ms) (hcc : columnRowsOf dm = .ok cs)
    (hr : relRowsOf dm = .ok rs) (hq : pqRowsOf dm = .ok pqs) :
    txnBody ui dm db = .ok (applyProjection prs vrs crs ms cs rs pqs db) := by
  unfold txnBody
  rw [create_ui_tables_spec ui db prs vrs crs hp hv hc]
  simp only [bind_ok_exc]
  rw [create_metadata_tables_spec dm _ ms cs rs pqs hm hcc hr hq]
  simp only [bind_ok_exc]
  rfl

/-- C1 (amended): projection is idempotent only for the naturally keyed
tables: on a second successful run against the same canonical model and
the store left by the first run, the pages, visualizations and
custom-visual row counts are unchanged (given non-NULL natural keys,
since SQLite NULL keys never conflict), while the DAX-measure,
calculated-column, relationship and power-query tables use AUTOINCREMENT
surrogate keys whose INSERT OR REPLACE never conflicts, so the second
run appends exactly as many rows as the first did. -/
theorem projection_idempotence_amended (ui dm : Json) (db : Store)
    (prs vrs crs ms cs rs pqs : List (List Json))
    (hp : pageRowsOf ui = .ok prs) (hv : visualRowsOf ui = .ok vrs)
    (hc : customRowsOf ui = .ok crs)
    (hm : measureRowsOf dm = .ok ms) (hcc : columnRowsOf dm = .ok cs)
    (hr : relRowsOf dm = .ok rs) (hq : pqRowsOf dm = .ok pqs)
    (hkp : ∀ r ∈ prs, keyNoNull (key1 r) = true)
    (hkv : ∀ r ∈ vrs, keyNoNull (key2 r) = true)
    (hkc : ∀ r ∈ crs, keyNoNull (key1 r) = true) :
    ∃ s1 s2 : Store,
      setup_powerbi_mcp_database ui dm db = (s1, true) ∧
      setup_powerbi_mcp_database ui dm s1 = (s2, true) ∧
      s2.pages.length = s1.pages.length ∧
      s2.visualizations.length = s1.visualizations.length ∧
      s2.custom_visuals.length = s1.custom_visuals.length ∧
      s2.dax_measures.rows.length + db.dax_measures.rows.length =
        2 * s1.dax_measures.rows.length ∧
      s2.calculated_columns.rows.length + db.calculated_columns.rows.length =
        2 * s1.calculated_columns.rows.length ∧
      s2.relationships.rows.length + db.relationships.rows.length =
        2 * s1.relationships.rows.length ∧
      s2.power_query.rows.length + db.power_query.rows.length =
        2 * s1.power_query.rows.length := by
  refine ⟨applyProjection prs vrs crs ms cs rs pqs db,
          applyProjection prs vrs crs ms cs rs pqs
            (applyProjection prs vrs crs ms cs rs pqs db),
          ?_, ?_, ?_, ?_, ?_, ?_, ?_, ?_, ?_⟩
  · unfold setup_powerbi_mcp_database
    rw [txnBody_spec ui dm db prs vrs crs ms cs rs pqs hp hv hc hm hcc hr hq]
  · unfold setup_powerbi_mcp_database
    rw [txnBody_spec ui dm _ prs vrs crs ms cs rs pqs hp hv hc hm hcc hr hq]
  · simp only [applyProjection]
    exact runUpserts_twice_length key1 prs db.pages hkp
  · simp only [applyProjection]
    exact runUpserts_twice_length key2 vrs db.visualizations hkv
  · simp only [applyProjection]
    exact runUpserts_twice_length key1 crs db.custom_visuals hkc
  · simp only [applyProjection]
    simp [runAuto_rows_length]
    omega
  · simp only [applyProjection]
    simp [runAuto_rows_length]
    omega
  · simp only [applyProjection]
    simp [runAuto_rows_length]
    omega
  · simp only [applyProjection]
    simp [runAuto_rows_length]
    omega

/-- C1 counterexample: for a canonical model with one page and one DAX
measure, projected twice from the empty store, the pages table stays at
one row but the measures table grows from one row to two on the second
run, so the second run does not leave every persisted table with its row
count unchanged. -/
theorem projection_idempotence_counterexample :
    (setup_powerbi_mcp_database
      (Json.obj [("pages", Json.arr [Json.obj
        [("name", Json.str "P1"), ("ordinal", Json.num 0),
         ("width", Json.num 100), ("height", Json.num 50),
         ("visual_count", Json.num 0)]])])
      (Json.obj [("measures", Json.arr [Json.obj []])])
      emptyStore).1.dax_measures.rows.length = 1 ∧
    (setup_powerbi_mcp_database
      (Json.obj [("pages", Json.arr [Json.obj
        [("name", Json.str "P1"), ("ordinal", Json.num 0),
         ("width", Json.num 100), ("height", Json.num 50),
         ("visual_count", Json.num 0)]])])
      (Json.obj [("measures", Json.arr [Json.obj []])])
      (setup_powerbi_mcp_database
        (Json.obj [("pages", Json.arr [Json.obj
          [("name", Json.str "P1"), ("ordinal", Json.num 0),
           ("width", Json.num 100), ("height", Json.num 50),
           ("visual_count", Json.num 0)]])])
        (Json.obj [("measures", Json.arr [Json.obj []])])
        emptyStore).1).1.dax_measures.rows.length = 2 ∧
    (1 : Nat) ≠ 2 := by decide

/-- C1 witness: the amended idempotence statement instantiated at a
one-page one-measure model over the empty store. -/
theorem projection_idempotence_witness :
    ∃ s1 s2 : Store,
      setup_powerbi_mcp_database
        (Json.obj [("pages", Json.arr [Json.obj
          [("name", Json.str "P1"), ("ordinal", Json.num 0),
           ("width", Json.num 100), ("height", Json.num 50),
           ("visual_count", Json.num 0)]])])
        (Json.obj [("measures", Json.arr [Json.obj []])])
        emptyStore = (s1, true) ∧
      setup_powerbi_mcp_database
        (Json.obj [("pages", Json.arr [Json.obj
          [("name", Json.str "P1"), ("ordinal", Json.num 0),
           ("width", Json.num 100), ("height", Json.num 50),
           ("visual_count", Json.num 0)]])])
        (Json.obj [("measures", Json.arr [Json.obj []])])
        s1 = (s2, true) ∧
      s2.pages.length = s1.pages.length ∧
      s2.visualizations.length = s1.visualizations.length ∧
      s2.custom_visuals.length = s1.custom_visuals.length ∧
      s2.dax_measures.rows.length + emptyStore.dax_measures.rows.length =
        2 * s1.dax_measures.rows.length ∧
      s2.calculated_columns.rows.length + emptyStore.calculated_columns.rows.length =
        2 * s1.calculated_columns.rows.length ∧
      s2.relationships.rows.length + emptyStore.relationships.rows.length =
        2 * s1.relationships.rows.length ∧
      s2.power_query.rows.length + emptyStore.power_query.rows.length =
        2 * s1.power_query.rows.length :=
  projection_idempotence_amended
    (Json.obj [("pages", Json.arr [Json.obj
      [("name", Json.str "P1"), ("ordinal", Json.num 0),
       ("width", Json.num 100), ("height", Json.num 50),
       ("visual_count", Json.num 0)]])])
    (Json.obj [("measures", Json.arr [Json.obj []])])
    emptyStore
    [[Json.str "P1", Json.str "P1", Json.str "P1", Json.num 0, Json.num 100,
      Json.num 50, Json.num 0, Json.obj [], Json.str "[]"]]
    [] []
    [[Json.str "", Json.str "", Json.str "", Json.str ""]]
    [] [] []
    (by decide) (by decide) (by decide) (by decide) (by decide) (by decide)
    (by decide) (by decide) (by decide) (by decide)

/-- C10: the Power Query source-type classifier is total on M-expression
strings and applies the fixed priority order Excel.Workbook,
AzureStorage.BlobContents, Table.FromRows, Sql.Database, Web.Contents:
the result is always exactly one of the six labels, the earliest
matching marker in that order decides it, and a string with no marker is
Other. -/
theorem source_type_classifier_priority (s : String) :
    ∃ l, extract_source_type (Json.str s) = .ok l ∧
      l ∈ ["Excel", "Azure Blob Storage", "Embedded Table", "SQL Database",
           "Web Source", "Other"] ∧
      (strHasSub s "Excel.Workbook" = true → l = "Excel") ∧
      (strHasSub s "Excel.Workbook" = false →
        strHasSub s "AzureStorage.BlobContents" = true → l = "Azure Blob Storage") ∧
      (strHasSub s "Excel.Workbook" = false →
        strHasSub s "AzureStorage.BlobContents" = false →
        strHasSub s "Table.FromRows" = true → l = "Embedded Table") ∧
      (strHasSub s "Excel.Workbook" = false →
        strHasSub s "AzureStorage.BlobContents" = false →
        strHasSub s "Table.FromRows" = false →
        strHasSub s "Sql.Database" = true → l = "SQL Database") ∧
      (strHasSub s "Excel.Workbook" = false →
        strHasSub s "AzureStorage.BlobContents" = false →
        strHasSub s "Table.FromRows" = false →
        strHasSub s "Sql.Database" = false →
        strHasSub s "Web.Contents" = true → l = "Web Source") ∧
      (strHasSub s "Excel.Workbook" = false →
        strHasSub s "AzureStorage.BlobContents" = false →
        strHasSub s "Table.FromRows" = false →
        strHasSub s "Sql.Database" = false →
        strHasSub s "Web.Contents" = false → l = "Other") := by
  cases h1 : strHasSub s "Excel.Workbook" <;>
    cases h2 : strHasSub s "AzureStorage.BlobContents" <;>
    cases h3 : strHasSub s "Table.FromRows" <;>
    cases h4 : strHasSub s "Sql.Database" <;>
    cases h5 : strHasSub s "Web.Contents" <;>
    simp [extract_source_type, pyIn, h1, h2, h3, h4, h5]

/-- C10 witness: a string carrying both the Excel and the SQL markers is
classified Excel by the priority order. -/
theorem source_type_classifier_priority_witness :
    extract_source_type
      (Json.str "let A = Excel.Workbook(f), B = Sql.Database(srv) in A") = .ok "Excel" := by
  obtain ⟨l, hres, _, hx, _⟩ :=
    source_type_classifier_priority "let A = Excel.Workbook(f), B = Sql.Database(srv) in A"
  rw [hres, hx (by decide)]

/-- C2 (amended): the encoding cascade tries UTF-16LE first, then strict
UTF-8, then a final lossy decode; the lossy step discards undecodable
sequences (errors ignore) rather than replacing them, and it never
fails.  A payload valid under UTF-16LE decodes via the first step and
never reaches the fallback. -/
theorem encoding_cascade_amended (b : List Nat) :
    (∀ t, utf16leDecode b = some t → decode_cascade b = t) ∧
    (utf16leDecode b = none → ∀ t, utf8Decode b = some t → decode_cascade b = t) ∧
    (utf16leDecode b = none → utf8Decode b = none →
      decode_cascade b = utf8DecodeIgnore b) := by
  refine ⟨fun t ht => ?_, fun h1 t ht => ?_, fun h1 h2 => ?_⟩ <;>
    simp [decode_cascade, *]

/-- C2 counterexample: the claim says the final lossy decode replaces
undecodable sequences; on the payload 0xFF the cascade yields the empty
text (the byte is discarded), while the replacing decode the claim
describes yields the replacement character. -/
theorem encoding_cascade_counterexample :
    decode_cascade [255] = [] ∧
    utf8_decode_replace_spec [255] = [0xFFFD] ∧
    ([] : List Nat) ≠ [0xFFFD] := by
  refine ⟨?_, ?_, by decide⟩
  · simp [decode_cascade, utf16leDecode, utf8Decode, utf8Step, utf8DecodeIgnore]
  · simp [utf8_decode_replace_spec, utf8Step]

/-- C2 witness: a concrete valid UTF-16LE payload decodes via the first
cascade step. -/
theorem encoding_cascade_witness : decode_cascade [65, 0, 66, 0] = [65, 66] :=
  (encoding_cascade_amended [65, 0, 66, 0]).1 [65, 66] (by decide)

/-- C6: projection is atomic on error: every write of one run executes
inside the single transaction body with one commit point, so whenever
the body fails the store is rolled back to its prior state and the run
is reported as failed. -/
theorem projection_atomic_on_error (ui dm : Json) (db : Store) (e : PyErr)
    (h : txnBody ui dm db = .error e) :
    setup_powerbi_mcp_database ui dm db = (db, false) := by
  unfold setup_powerbi_mcp_database
  rw [h]

/-- C6 witness: a canonical model carrying a page record without a name
fails the page write mid-run; the store is left exactly as it was and
the run reports failure. -/
theorem projection_atomic_on_error_witness :
    setup_powerbi_mcp_database (Json.obj [("pages", Json.arr [Json.obj []])])
      (Json.obj []) emptyStore = (emptyStore, false) :=
  projection_atomic_on_error _ _ _ (PyErr.keyError "name") (by decide)

/-- C9: the page-visual resolver is deterministic: the assigned page is a
function of the page list and of the visual record through its id and
path fields alone, so identical inputs always resolve identically, with
no hidden state or tie-breaking. -/
theorem resolver_deterministic (v1 v2 pages : Json)
    (hid : pyGet v1 "id" (Json.str "") = pyGet v2 "id" (Json.str ""))
    (hpath : pyGet v1 "path" (Json.str "") = pyGet v2 "path" (Json.str "")) :
    extract_page_from_visual v1 pages = extract_page_from_visual v2 pages := by
  unfold extract_page_from_visual
  rw [hid, hpath]

/-- C9 witness: two visual records agreeing on id and path resolve to the
same page over a concrete page list. -/
theorem resolver_deterministic_witness :
    extract_page_from_visual
      (Json.obj [("id", Json.str "v"), ("path", Json.str "sections[1]")])
      (Json.arr [Json.obj [("name", Json.str "p0")], Json.obj [("name", Json.str "p1")]]) =
    extract_page_from_visual
      (Json.obj [("id", Json.str "v"), ("path", Json.str "sections[1]"), ("extra", Json.num 7)])
      (Json.arr [Json.obj [("name", Json.str "p0")], Json.obj [("name", Json.str "p1")]]) :=
  resolver_deterministic _ _ _ (by decide) (by decide)

theorem findContainer_spec (vid : String) (cids : List Json) :
    findContainer vid (cids.map mkContainerJ) =
      .ok (cids.any (fun c => pyStr c == vid)) := by
  induction cids with
  | nil => rfl
  | cons c rest ih =>
    have hstep : findContainer vid (List.map mkContainerJ (c :: rest)) =
        (if (pyStr c == vid) = true then .ok true
         else findContainer vid (List.map mkContainerJ rest)) := rfl
    rw [hstep, List.any_cons]
    cases h : pyStr c == vid
    · rw [if_neg Bool.false_ne_true, ih, Bool.false_or]
    · rw [if_pos rfl, Bool.true_or]

theorem findPageLoop_spec (vid : String) (ps : List PageSpec) :
    findPageLoop vid (ps.map mkPageJ) =
      .ok ((ps.find? (pageMatches vid)).map PageSpec.pname) := by
  induction ps with
  | nil => rfl
  | cons p rest ih =>
    have hstep : findPageLoop vid (List.map mkPageJ (p :: rest)) =
        (do
          let found ← findContainer vid (p.cids.map mkContainerJ)
          if found then pure (some p.pname)
          else findPageLoop vid (List.map mkPageJ rest)) := rfl
    rw [hstep, findContainer_spec, bind_ok_exc]
    cases h : pageMatches vid p
    · have h2 : (p.cids.any fun c => pyStr c == vid) = false := h
      rw [if_neg (by rw [h2]; exact Bool.false_ne_true), ih,
        List.find?_cons_of_neg _ (by simp [h])]
    · have h2 : (p.cids.any fun c => pyStr c == vid) = true := h
      rw [if_pos (by rw [h2]), List.find?_cons_of_pos _ (by simp [h])]
      rfl

theorem firstPage_spec (ps : List PageSpec) :
    firstPageOrUnknown (Json.arr (ps.map mkPageJ)) = .ok (nameAt ps 0) := by
  cases ps with
  | nil => rfl
  | cons p rest => rfl

theorem pageName_at (ps : List PageSpec) (k : Nat) (h : k < ps.length) :
    (do
      let p ← pyIdx (Json.arr (ps.map mkPageJ)) k
      pyIndexJ p "name" : Except PyErr Json) = .ok (nameAt ps k) := by
  cases hx : ps.get? k with
  | none =>
    rw [List.get?_eq_none] at hx
    omega
  | some x =>
    have hx2 : ps[k]? = some x := by
      rw [← List.get?_eq_getElem?]
      exact hx
    simp [pyIdx, pyIndexJ, mkPageJ, jlookup, nameAt, hx2,
      List.get?_eq_getElem?, List.getElem?_map]

theorem positionalFallback_spec (path : String) (ps : List PageSpec) :
    positionalFallback (Json.str path) (Json.arr (ps.map mkPageJ)) =
      .ok (positionalSpecArm path ps) := by
  unfold positionalFallback positionalSpecArm
  cases h0 : strHasSub path "sections[0]" <;>
    cases h1 : strHasSub path "sections[1]" <;>
    cases h2 : strHasSub path "sections[2]" <;>
    cases h3 : strHasSub path "sections[3]" <;>
    by_cases hk1 : 1 < ps.length <;>
    by_cases hk2 : 2 < ps.length <;>
    by_cases hk3 : 3 < ps.length <;>
    simp [pyIn, pyLen, h0, h1, h2, h3, hk1, hk2, hk3, firstPage_spec,
      pageName_at, List.length_map]

/-- C5 (amended): the page-visual resolver applies the ordered fallback
chain: (1) the first page whose raw visual-container list carries an
entry whose stringified id equals the stringified visual id is assigned;
(2) otherwise the discovery path is tested for the substrings
sections[0] through sections[3] in that order, an indexed arm assigning
the page at that ordinal only when it exists (section indices of 4 and
above have no positional rule); (3) otherwise the first page is
assigned, and only with an empty page list is the Unknown marker
produced. -/
theorem resolver_fallback_chain_amended (idJ : Json) (path : String)
    (ps : List PageSpec) :
    extract_page_from_visual (mkVisualJ idJ path) (Json.arr (ps.map mkPageJ)) =
      .ok (resolveSpec (pyStr idJ) path ps) := by
  unfold extract_page_from_visual resolveSpec
  cases hf : ps.find? (pageMatches (pyStr idJ)) with
  | some p =>
    simp [mkVisualJ, pyGet, jlookup, pyIterList, findPageLoop_spec, hf]
  | none =>
    simp [mkVisualJ, pyGet, jlookup, pyIterList, findPageLoop_spec, hf,
      positionalFallback_spec]

/-- C5 counterexample: with five pages, no id match, and a discovery path
under the fifth top-level section (sections[4]), the claim assigns the
fifth page, which exists; the code has no positional rule past
sections[3] and assigns the first page instead. -/
theorem resolver_fallback_chain_counterexample :
    extract_page_from_visual
      (Json.obj [("id", Json.str "v"),
                 ("path", Json.str "sections[4].visualContainers[0]")])
      (Json.arr [Json.obj [("name", Json.str "p0")],
                 Json.obj [("name", Json.str "p1")],
                 Json.obj [("name", Json.str "p2")],
                 Json.obj [("name", Json.str "p3")],
                 Json.obj [("name", Json.str "p4")]]) = .ok (Json.str "p0") ∧
    Json.str "p0" ≠ Json.str "p4" := by decide

/-- C7 (amended): for every decoded member text that is not
whitespace-only and on which strict JSON parsing fails, the parse step
neither discards the member nor raises: it returns the fallback tagged
raw_content, retaining the first 1000 characters of the raw text and at
most three more (the appended ellipsis). -/
theorem parse_fallback_amended (text : String)
    (hj : jsonParse text = none) (hb : strippedTruthy text = true) :
    ∃ r : String,
      parse_layout_text text = some (Json.obj [("raw_content", Json.str r)]) ∧
      r.data.take 1000 = text.data.take 1000 ∧
      r.data.length ≤ min text.data.length 1000 + 3 := by
  by_cases hlen : 1000 < text.data.length
  · refine ⟨String.mk (text.data.take 1000 ++ ['.', '.', '.']), ?_, ?_, ?_⟩
    · have hlen2 : 1000 < text.length := hlen
      simp [parse_layout_text, hb, hj, hlen, hlen2]
    · have h1000 : (text.data.take 1000).length = 1000 := by
        have hlen2 : 1000 < text.length := hlen
        simp [List.length_take]
        omega
      have key : ∀ (l m : List Char), l.length = 1000 → (l ++ m).take 1000 = l := by
        intro l m hl
        rw [← hl, List.take_left]
      exact key (text.data.take 1000) ['.', '.', '.'] h1000
    · show (text.data.take 1000 ++ ['.', '.', '.']).length ≤ _
      simp [List.length_take, List.length_append]
  · refine ⟨text, ?_, rfl, ?_⟩
    · have hlen2 : ¬1000 < text.length := hlen
      simp [parse_layout_text, hb, hj, hlen, hlen2]
    · omega

instance (s : String) : Decidable (parseFailsOnConfig s) :=
  if h : leadsWith [lbChar] s.data = true then
    decidable_of_iff (jsonParse s = none) (by simp [parseFailsOnConfig, h])
  else
    decidable_of_iff (jsonParse (stripChar dqChar s) = none)
      (by simp [parseFailsOnConfig, h])

theorem parse_visual_config_fails (s : String) (h : parseFailsOnConfig s) :
    parse_visual_config (Json.str s) = .ok (errConfig s) := by
  unfold parseFailsOnConfig at h
  by_cases hb : leadsWith [lbChar] s.data = true
  · rw [if_pos hb] at h
    simp [parse_visual_config, hb, h]
  · rw [if_neg hb] at h
    simp [parse_visual_config, hb, h]

theorem extract_visual_type_errConfig (s : String) :
    extract_visual_type (errConfig s) = .ok (Json.str "Unknown") := by
  simp [extract_visual_type, errConfig, pyIn, jlookup]

theorem extract_data_roles_errConfig (s : String) :
    extract_data_roles (errConfig s) = .ok (Json.arr []) := by
  simp [extract_data_roles, edrBody, errConfig, pyIn, jlookup]

theorem extract_visual_properties_errConfig (s : String) :
    extract_visual_properties (errConfig s) = .ok (Json.obj []) := by
  simp [extract_visual_properties, evpBody, errConfig, pyIn, jlookup]

theorem extract_text_content_errConfig (s : String) :
    extract_text_content (errConfig s) = none := by
  simp [extract_text_content, etcBody, errConfig, pyIn, jlookup]

theorem extract_bookmarks_errConfig (s : String) :
    extract_bookmarks_and_actions (errConfig s) = Json.obj [] := by
  simp [extract_bookmarks_and_actions, ebaBody, errConfig, pyIn, jlookup]

/-- C3 (amended): for every visual candidate whose configuration string
fails the parse step (the direct JSON parse when the string opens with a
brace, otherwise the parse of the quote-stripped string),
classify-and-extract returns a Visual record with canonical type Unknown
and every derived field empty (no data roles, no properties, no text, no
actions), and raises no error. -/
theorem classification_degrades_amended (idJ pn : Json) (s : String)
    (h : parseFailsOnConfig s) :
    _enhance_visual_data (Json.obj [("id", idJ), ("properties", Json.str s)]) pn =
      .ok { id := idJ, page_name := pn, enhanced_type := Json.str "Unknown",
            original_type := Json.str "unknown",
            position := Json.obj [("x", Json.num 0), ("y", Json.num 0),
                                  ("width", Json.num 0), ("height", Json.num 0),
                                  ("z_order", Json.num 0)],
            data_roles := Json.arr [], properties := Json.obj [],
            text_content := none, actions := Json.obj [],
            config_size := s.data.length } := by
  have hp := parse_visual_config_fails s h
  simp [_enhance_visual_data, pyGet, jlookup, hp,
    extract_visual_type_errConfig, extract_data_roles_errConfig,
    extract_visual_properties_errConfig, extract_text_content_errConfig,
    extract_bookmarks_errConfig, pyRound1, pyLen]

/-- C3 counterexample: first, an invalid configuration string yields
canonical type Unknown with a capital U, not the claimed lowercase
unknown; second, the claim quantifies over every syntactically invalid
JSON configuration string, yet a string that is invalid JSON but whose
quote-stripped form parses is classified normally (here as Bar Chart),
not as unknown with empty fields. -/
theorem classification_degrades_counterexample :
    ((_enhance_visual_data
        (Json.obj [("id", Json.null), ("properties", Json.str "not json")])
        (Json.str "P1")).map EnhancedVisual.enhanced_type =
      .ok (Json.str "Unknown") ∧
     Json.str "Unknown" ≠ Json.str "unknown") ∧
    (jsonParse "\"\x7b\"singleVisual\": \x7b\"visualType\": \"barChart\"\x7d\x7d\"" = none ∧
     (_enhance_visual_data
        (Json.obj [("id", Json.null),
          ("properties",
           Json.str "\"\x7b\"singleVisual\": \x7b\"visualType\": \"barChart\"\x7d\x7d\"")])
        (Json.str "P1")).map EnhancedVisual.enhanced_type =
      .ok (Json.str "Bar Chart") ∧
     Json.str "Bar Chart" ≠ Json.str "unknown") := by
  decide

/-- C3 witness: the concrete invalid configuration string yields the
fully empty Unknown record. -/
theorem classification_degrades_witness :
    _enhance_visual_data
      (Json.obj [("id", Json.null), ("properties", Json.str "no config here")])
      (Json.str "P1") =
      .ok { id := Json.null, page_name := Json.str "P1",
            enhanced_type := Json.str "Unknown",
            original_type := Json.str "unknown",
            position := Json.obj [("x", Json.num 0), ("y", Json.num 0),
                                  ("width", Json.num 0), ("height", Json.num 0),
                                  ("z_order", Json.num 0)],
            data_roles := Json.arr [], properties := Json.obj [],
            text_content := none, actions := Json.obj [],
            config_size := 14 } := by
  rw [classification_degrades_amended Json.null (Json.str "P1") "no config here"
    (by decide)]
  decide

/-- C7 counterexample: the claim quantifies over every decoded text on
which JSON parsing fails; on whitespace-only text parsing fails, yet the
parse step returns nothing at all (the member is discarded), not the
tagged fallback the claim requires. -/
theorem parse_fallback_counterexample :
    jsonParse " " = none ∧
    parse_layout_text " " = none ∧
    (none : Option Json) ≠ some (Json.obj [("raw_content", Json.str " ")]) := by
  decide

/-- C7 witness: a concrete short non-JSON text is retained whole under
the raw_content tag. -/
theorem parse_fallback_witness :
    ∃ r : String,
      parse_layout_text "not json" = some (Json.obj [("raw_content", Json.str r)]) ∧
      r.data.take 1000 = "not json".data.take 1000 ∧
      r.data.length ≤ min "not json".data.length 1000 + 3 :=
  parse_fallback_amended "not json" (by decide) (by decide)

theorem edrFieldLoop_arr (role : String) (fs : List Json) (a : List Json) :
    edrFieldLoop role fs (Json.arr a) =
      .ok (Json.arr (a ++ fs.map
        (fun f => Json.obj [("role", Json.str role), ("field", f)]))) := by
  induction fs generalizing a with
  | nil => simp [edrFieldLoop]
  | cons f rest ih => simp [edrFieldLoop, pyAppend, ih]

theorem edrProjLoop_arr (items : List (String × Json)) (a : List Json) :
    edrProjLoop items (Json.arr a) = .ok (Json.arr (a ++ projFlatten items)) := by
  induction items generalizing a with
  | nil => simp [edrProjLoop, projFlatten]
  | cons p rest ih =>
    obtain ⟨rn, fields⟩ := p
    cases fields <;>
      simp [edrProjLoop, projFlatten, edrFieldLoop_arr, ih, List.append_assoc]

/-- C8: data-role binding extraction unions the three shapes: with a
nested query dataRoles list, a projections map and a direct dataRoles
list all present, the extracted list is exactly their concatenation
(query roles, then one binding per field per projection role, then the
direct roles), so every binding of every shape appears, never a
subset. -/
theorem data_roles_union (cl svl ql pl : List (String × Json)) (L1 L3 : List Json)
    (hsv : jlookup cl "singleVisual" = some (Json.obj svl))
    (hq : jlookup svl "query" = some (Json.obj ql))
    (hqd : jlookup ql "dataRoles" = some (Json.arr L1))
    (hp : jlookup svl "projections" = some (Json.obj pl))
    (hd : jlookup svl "dataRoles" = some (Json.arr L3)) :
    extract_data_roles (Json.obj cl) = .ok (Json.arr (L1 ++ projFlatten pl ++ L3)) ∧
    (∀ b ∈ L1, b ∈ L1 ++ projFlatten pl ++ L3) ∧
    (∀ rn fs, (rn, Json.arr fs) ∈ pl → ∀ f ∈ fs,
      Json.obj [("role", Json.str rn), ("field", f)] ∈ L1 ++ projFlatten pl ++ L3) ∧
    (∀ b ∈ L3, b ∈ L1 ++ projFlatten pl ++ L3) := by
  refine ⟨?_, ?_, ?_, ?_⟩
  · simp [extract_data_roles, edrBody, edrQuery, edrProj, edrDirect, pyIn,
      pyIndexJ, pyItems, pyIterList, hsv, hq, hqd, hp, hd, edrProjLoop_arr,
      List.append_assoc]
  · intro b hb
    simp [hb]
  · intro rn fs hmem f hf
    have hpf : Json.obj [("role", Json.str rn), ("field", f)] ∈ projFlatten pl := by
      unfold projFlatten
      apply List.mem_flatten.mpr
      refine ⟨fs.map (fun f => Json.obj [("role", Json.str rn), ("field", f)]), ?_, ?_⟩
      · exact List.mem_map.mpr ⟨(rn, Json.arr fs), hmem, rfl⟩
      · exact List.mem_map.mpr ⟨f, hf, rfl⟩
    simp [hpf]
  · intro b hb
    simp [hb]

/-- C8 witness: a configuration carrying all three shapes at once yields
the full concatenation of the three binding sources. -/
theorem data_roles_union_witness :
    extract_data_roles (Json.obj [("singleVisual", Json.obj
      [("query", Json.obj [("dataRoles", Json.arr [Json.str "q1"])]),
       ("projections", Json.obj [("Y", Json.arr [Json.str "f1"])]),
       ("dataRoles", Json.arr [Json.str "d1"])])]) =
      .ok (Json.arr [Json.str "q1",
        Json.obj [("role", Json.str "Y"), ("field", Json.str "f1")],
        Json.str "d1"]) := by
  rw [(data_roles_union
    [("singleVisual", Json.obj
      [("query", Json.obj [("dataRoles", Json.arr [Json.str "q1"])]),
       ("projections", Json.obj [("Y", Json.arr [Json.str "f1"])]),
       ("dataRoles", Json.arr [Json.str "d1"])])]
    [("query", Json.obj [("dataRoles", Json.arr [Json.str "q1"])]),
     ("projections", Json.obj [("Y", Json.arr [Json.str "f1"])]),
     ("dataRoles", Json.arr [Json.str "d1"])]
    [("dataRoles", Json.arr [Json.str "q1"])]
    [("Y", Json.arr [Json.str "f1"])]
    [Json.str "q1"] [Json.str "d1"]
    (by decide) (by decide) (by decide) (by decide) (by decide)).1]
  decide

/-- C4 (amended): a configuration carrying a raw visual-type code under
the nested singleVisual sub-object is classified through the static
code-to-canonical-name table; a code absent from the table passes
through unchanged (not title-cased) rather than failing. -/
theorem visual_type_map_amended (cl svl : List (String × Json)) (code : String)
    (h1 : jlookup cl "singleVisual" = some (Json.obj svl))
    (h2 : jlookup svl "visualType" = some (Json.str code)) :
    extract_visual_type (Json.obj cl) =
      .ok (Json.str ((lookupStr VISUAL_TYPE_MAP code).getD code)) := by
  simp [extract_visual_type, pyIn, pyIndexJ, h1, h2, vtGet]

/-- C4 counterexample: the claim says unknown codes pass through
title-cased; the unknown code myCustomVisual is returned verbatim, while
its title-casing is Mycustomvisual, a different string. -/
theorem visual_type_map_counterexample :
    extract_visual_type
      (Json.obj [("singleVisual", Json.obj [("visualType", Json.str "myCustomVisual")])]) =
      .ok (Json.str "myCustomVisual") ∧
    py_title_spec "myCustomVisual" = "Mycustomvisual" ∧
    ("myCustomVisual" : String) ≠ "Mycustomvisual" := by decide

/-- C4 witness: the table maps barChart to Bar Chart, and the unmapped
code passes through unchanged. -/
theorem visual_type_map_witness :
    extract_visual_type
      (Json.obj [("singleVisual", Json.obj [("visualType", Json.str "barChart")])]) =
      .ok (Json.str "Bar Chart") := by
  rw [visual_type_map_amended [("singleVisual", Json.obj [("visualType", Json.str "barChart")])]
    [("visualType", Json.str "barChart")] "barChart" (by decide) (by decide)]
  decide

end PB
